import Mathlib

/-!
Verification of the Magic-UV add-on (uv_magic_uv, v5.1): a shallow embedding of
the UV sculpt brush engine (`op/uv_sculpt.py`) and of the copy/paste UV
operators (`op/copy_paste_uv.py`), with theorems checking the natural-language
specification against the code.

Modelling conventions:
* UV coordinates and 2D region coordinates are pairs of rationals.
* The host's view projection (`view3d_utils.location_3d_to_region_2d` composed
  with the object's world matrix) is abstracted as a function `proj` from a
  vertex identifier to its projected 2D region position; vertex identifiers
  stand for `BMVert` references.
* The host's 2D vector length (`mathutils.Vector.length`, a real-valued
  Euclidean norm) is abstracted as a parameter `len2`; concrete instances in
  witnesses place all points on an axis so that the norm is rational.
* Fallible Python operations (dictionary lookup, division, unbound locals)
  are embedded in `Option`/`Except`.
-/

set_option linter.unusedVariables false

namespace MagicUV

/-- A 2D vector: a UV coordinate or a 2D region (screen) coordinate. -/
structure UV where
  u : ℚ
  v : ℚ
deriving DecidableEq, Repr

def UV.add (a b : UV) : UV := ⟨a.u + b.u, a.v + b.v⟩

def UV.sub (a b : UV) : UV := ⟨a.u - b.u, a.v - b.v⟩

def UV.scale (c : ℚ) (a : UV) : UV := ⟨c * a.u, c * a.v⟩

def UV.div (a : UV) (c : ℚ) : UV := ⟨a.u / c, a.v / c⟩

def UV.zero : UV := ⟨0, 0⟩

/-- One face corner (`BMLoop` as used by the code): its vertex (identifier),
its per-loop UV coordinate, its UV pin flag and its edge's seam flag. -/
structure Loop where
  vert : Nat
  uv : UV
  pin : Bool
  seam : Bool
deriving DecidableEq, Repr

def defaultLoop : Loop := ⟨0, UV.zero, false, false⟩

/-- A face (`BMFace`): selection flag and its ordered loops. -/
structure Face where
  select : Bool
  loops : List Loop
deriving DecidableEq, Repr

def defaultFace : Face := ⟨false, []⟩

/-- The mesh: the ordered face list of the BMesh; a face's index
(`f.index`, after `ensure_lookup_table`) is its list position. -/
abbrev Mesh := List Face

/-- The UV sculpt tool selected in `sc.muv_uvsculpt_tools`. -/
inductive Tool where
  | grab
  | pinch
  | relax
deriving DecidableEq, Repr

/-- The scene configuration read by the sculpt operator:
`muv_uvsculpt_radius`, `muv_uvsculpt_strength`, `muv_uvsculpt_tools`,
`muv_uvsculpt_pinch_invert`, `muv_uvsculpt_relax_method`. The relax method is
kept as a string so that the unknown-method fallback is representable. -/
structure SculptConfig where
  radius : ℚ
  strength : ℚ
  tools : Tool
  pinchInvert : Bool
  relaxMethod : String
deriving DecidableEq, Repr

/-- `MUV_UVSculpt.__get_strength(p, len_, factor)`: the radial falloff. -/
def getStrength (p len_ factor : ℚ) : ℚ :=
  if p > len_ then 0
  else if p < 0 then factor
  else (len_ - p) * factor / len_

/-- Read the face at index `fi` (total, with a default face out of range). -/
def faceAt (mesh : Mesh) (fi : Nat) : Face := mesh.getD fi defaultFace

/-- Read the loop at `(fi, li)` (total, with a default loop out of range). -/
def loopAt (mesh : Mesh) (fi li : Nat) : Loop :=
  ((faceAt mesh fi).loops).getD li defaultLoop

/-- Read the UV at `(fi, li)`: `bm.faces[fi].loops[li][uv_layer].uv`. -/
def loopUVAt (mesh : Mesh) (fi li : Nat) : UV := (loopAt mesh fi li).uv

/-- Write the UV at `(fi, li)`: `bm.faces[fi].loops[li][uv_layer].uv = nuv`.
Out-of-range indices leave the mesh unchanged (all writes performed by the
code are in range). -/
def setLoopUV (mesh : Mesh) (fi li : Nat) (nuv : UV) : Mesh :=
  match mesh[fi]? with
  | none => mesh
  | some f =>
    match f.loops[li]? with
    | none => mesh
    | some l => mesh.set fi { f with loops := f.loops.set li { l with uv := nuv } }

/-- One entry of `self.__loop_info`: the influence record captured for a loop
whose projected distance to the initial cursor is below the brush radius. -/
structure LoopInfo where
  face_idx : Nat
  loop_idx : Nat
  initial_vco_2d : UV
  initial_uv : UV
  strength : ℚ
deriving DecidableEq, Repr

/-- The influence record built for loop `li` of face `fi`. -/
def mkLoopInfo (len2 : UV → ℚ) (proj : Nat → UV) (cfg : SculptConfig)
    (mesh : Mesh) (initialMco : UV) (fi li : Nat) : LoopInfo :=
  let l := loopAt mesh fi li
  let loc2d := proj l.vert
  let d := len2 (loc2d.sub initialMco)
  ⟨fi, li, loc2d, l.uv, getStrength d cfg.radius cfg.strength⟩

/-- The influence records contributed by face `fi`: nothing for an unselected
face, else one record per loop whose projected distance to the initial cursor
is strictly below the radius. -/
def selectFaceLoops (len2 : UV → ℚ) (proj : Nat → UV) (cfg : SculptConfig)
    (mesh : Mesh) (initialMco : UV) (fi : Nat) : List LoopInfo :=
  if (faceAt mesh fi).select then
    (List.range (faceAt mesh fi).loops.length).filterMap (fun li =>
      let l := loopAt mesh fi li
      let d := len2 ((proj l.vert).sub initialMco)
      if d < cfg.radius then
        some (mkLoopInfo len2 proj cfg mesh initialMco fi li)
      else none)
  else []

/-- The influence-selection loop shared by `__stroke_init` and the Pinch
branch of `__stroke_apply`: for every loop of every selected face whose
projected distance to the initial cursor is strictly below the radius, an
influence record. -/
def selectLoops (len2 : UV → ℚ) (proj : Nat → UV) (cfg : SculptConfig)
    (mesh : Mesh) (initialMco : UV) : List LoopInfo :=
  (List.range mesh.length).flatMap (selectFaceLoops len2 proj cfg mesh initialMco)

/-- `MUV_UVSculpt.__stroke_init`: capture the initial cursor position and the
influence records. -/
def strokeInit (len2 : UV → ℚ) (proj : Nat → UV) (cfg : SculptConfig)
    (mesh : Mesh) (initialMco : UV) : List LoopInfo :=
  selectLoops len2 proj cfg mesh initialMco

/-- The GRAB branch of `__stroke_apply` (and of `__stroke_exit`): each
captured record's loop UV is rewritten to
`initial_uv + (mco - initial_mco) * strength / 100.0`. -/
def strokeApplyGrab (infos : List LoopInfo) (initialMco mco : UV)
    (mesh : Mesh) : Mesh :=
  infos.foldl (fun m info =>
    setLoopUV m info.face_idx info.loop_idx
      (info.initial_uv.add (UV.div (UV.scale info.strength (mco.sub initialMco)) 100)))
    mesh

/-- The PINCH branch of `__stroke_apply`. The ray cast
(`BVHTree.ray_cast`) together with the barycentric transform onto the hit
face's first three loops is host geometry; it is abstracted as
`target? : Option UV`, `none` when the ray hits no face (`if not loc: return`)
and `some targetUV` otherwise. On a hit, each influenced loop moves by a tenth
of `(targetUV - currentUV) * strength` (sign-flipped under the invert flag). -/
def strokeApplyPinch (len2 : UV → ℚ) (proj : Nat → UV) (cfg : SculptConfig)
    (initialMco : UV) (target? : Option UV) (mesh : Mesh) : Mesh :=
  let infos := selectLoops len2 proj cfg mesh initialMco
  match target? with
  | none => mesh
  | some target =>
    infos.foldl (fun m info =>
      let cur := loopUVAt m info.face_idx info.loop_idx
      let diffUV :=
        if cfg.pinchInvert then UV.scale info.strength (cur.sub target)
        else UV.scale info.strength (target.sub cur)
      setLoopUV m info.face_idx info.loop_idx (cur.add (UV.div diffUV 10)))
      mesh

/-- One occurrence of a vertex in the relax traversal (`vert_db[...]["loops"]`
entry): the loop's own UV, and the UVs and vertices of its
`link_loop_next`/`link_loop_prev` loops around the owning face. -/
structure LoopRec where
  selfUV : UV
  nextUV : UV
  prevUV : UV
  nextVert : Nat
  prevVert : Nat
deriving DecidableEq, Repr

/-- The skeleton of `vert_db`: vertex identifier to its incident loop
occurrences, in dictionary insertion order (first-encounter order of the
face/loop traversal). -/
abbrev VertDB := List (Nat × List LoopRec)

/-- Insert one loop occurrence: append to an existing entry's list, or append
a fresh entry at the end. -/
def dbAdd (db : VertDB) (v : Nat) (r : LoopRec) : VertDB :=
  match db with
  | [] => [(v, [r])]
  | e :: rest => if e.1 = v then (e.1, e.2 ++ [r]) :: rest else e :: dbAdd rest v r

/-- The loop occurrence recorded for loop `i` of face `f`; `link_loop_next` is
the loop at `(i+1) % n` and `link_loop_prev` the loop at `(i+n-1) % n`. -/
def faceLoopRec (f : Face) (i : Nat) : Nat × LoopRec :=
  let n := f.loops.length
  let l := f.loops.getD i defaultLoop
  let ln := f.loops.getD ((i + 1) % n) defaultLoop
  let lp := f.loops.getD ((i + n - 1) % n) defaultLoop
  (l.vert, ⟨l.uv, ln.uv, lp.uv, ln.vert, lp.vert⟩)

/-- All loop occurrences of the mesh, in traversal order
(`for f in bm.faces: for l in f.loops`). -/
def allLoopRecs (mesh : Mesh) : List (Nat × LoopRec) :=
  mesh.flatMap (fun f => (List.range f.loops.length).map (faceLoopRec f))

/-- The `vert_db` built at the start of the RELAX branch of
`__stroke_apply`. -/
def buildVertDB (mesh : Mesh) : VertDB :=
  (allLoopRecs mesh).foldl (fun db p => dbAdd db p.1 p.2) []

/-- A `vert_db` entry after the aggregation passes: `"loops"`, `"uv_sum"`,
`"uv_count"`, `"uv_p"`, `"uv_b"`, `"uv_sum_b"`. -/
structure VertInfo where
  loops : List LoopRec
  uv_sum : UV
  uv_count : Nat
  uv_p : UV
  uv_b : UV
  uv_sum_b : UV
deriving DecidableEq, Repr

/-- Checked division (Python raises `ZeroDivisionError` on a zero divisor). -/
def qdivUV? (a : UV) (c : ℚ) : Option UV :=
  if c = 0 then none else some (UV.div a c)

/-- Pass 1 for one vertex entry: sum the next/prev UVs of each incident loop,
`uv_count = 2 * |loops|`, `uv_p = uv_sum / uv_count`,
`uv_b = uv_p - loops[0].uv`. Indexing `d["loops"][0]` and the division are
fallible. -/
def pass1Entry? (e : Nat × List LoopRec) : Option (Nat × VertInfo) := do
  let uvSum := e.2.foldl (fun s r => (s.add r.nextUV).add r.prevUV) UV.zero
  let cnt := 2 * e.2.length
  let uvP ← qdivUV? uvSum (cnt : ℚ)
  let first ← e.2.head?
  pure (e.1, ⟨e.2, uvSum, cnt, uvP, uvP.sub first.selfUV, UV.zero⟩)

/-- Pass 1 over the whole database. -/
def pass1? (db : VertDB) : Option (List (Nat × VertInfo)) :=
  db.mapM pass1Entry?

/-- Keyed dictionary lookup `vert_db[v]` (fallible: `KeyError`). -/
def dbFind? (db : List (Nat × VertInfo)) (v : Nat) : Option VertInfo :=
  (db.find? (fun e => e.1 == v)).map Prod.snd

/-- Pass 2 for one vertex entry: `uv_sum_b` sums the `uv_b` of the vertices of
each incident loop's next/prev loops, looked up in the pass-1 database. -/
def pass2Entry? (db1 : List (Nat × VertInfo)) (e : Nat × VertInfo) :
    Option (Nat × VertInfo) := do
  let s ← e.2.loops.foldlM (fun s r => do
      let dn ← dbFind? db1 r.nextVert
      let dp ← dbFind? db1 r.prevVert
      pure ((s.add dn.uv_b).add dp.uv_b)) UV.zero
  pure (e.1, { e.2 with uv_sum_b := s })

/-- Pass 2 over the whole database. -/
def pass2? (db1 : List (Nat × VertInfo)) : Option (List (Nat × VertInfo)) :=
  db1.mapM (pass2Entry? db1)

/-- The loops of face `fi` touched by the RELAX apply phase (the code
`continue`s over unselected faces and over loops with
`diff.length >= radius`). -/
def relaxFaceSites (len2 : UV → ℚ) (proj : Nat → UV) (cfg : SculptConfig)
    (mesh : Mesh) (initialMco : UV) (fi : Nat) : List (Nat × Nat) :=
  if (faceAt mesh fi).select then
    (List.range (faceAt mesh fi).loops.length).filterMap (fun li =>
      let l := loopAt mesh fi li
      let d := len2 ((proj l.vert).sub initialMco)
      if d < cfg.radius then some (fi, li) else none)
  else []

/-- The loops the RELAX apply phase touches: every loop of a selected face
whose projected distance to the initial cursor is strictly below the radius. -/
def relaxSites (len2 : UV → ℚ) (proj : Nat → UV) (cfg : SculptConfig)
    (mesh : Mesh) (initialMco : UV) : List (Nat × Nat) :=
  (List.range mesh.length).flatMap (relaxFaceSites len2 proj cfg mesh initialMco)

/-- The RELAX apply step for one influenced loop. `mesh0` is the mesh at the
start of the tick (vertices, selection and topology are not mutated by the
tick, so reading them from `mesh0` is faithful); the current UV is read from
the evolving mesh `m`. Note the HC branch divides `uv_sum_b` by
`d["uv_count"]` where `d` is the loop variable left over from pass 2 — the
entry of the LAST key of `vert_db` — not the current vertex's entry. -/
def relaxLoopStep? (len2 : UV → ℚ) (proj : Nat → UV) (cfg : SculptConfig)
    (initialMco : UV) (mesh0 : Mesh) (db2 : List (Nat × VertInfo))
    (m : Mesh) (p : Nat × Nat) : Option Mesh := do
  let l := loopAt mesh0 p.1 p.2
  let db ← dbFind? db2 l.vert
  let strength := getStrength (len2 ((proj l.vert).sub initialMco))
                    cfg.radius cfg.strength
  let cur := loopUVAt m p.1 p.2
  let base := UV.scale (1 - strength) cur
  if cfg.relaxMethod = "HC" then do
    let lastE ← db2.getLast?
    let q ← qdivUV? db.uv_sum_b (lastE.2.uv_count : ℚ)
    let t := UV.scale (1/2) (db.uv_b.add q)
    pure (setLoopUV m p.1 p.2 (base.add (UV.scale strength (db.uv_p.sub t))))
  else if cfg.relaxMethod = "LAPLACIAN" then
    pure (setLoopUV m p.1 p.2 (base.add (UV.scale strength db.uv_p)))
  else
    pure m

/-- The RELAX branch of `__stroke_apply`: build `vert_db`, run the two
aggregation passes, then update every influenced loop in traversal order. -/
def relaxApply? (len2 : UV → ℚ) (proj : Nat → UV) (cfg : SculptConfig)
    (initialMco : UV) (mesh : Mesh) : Option Mesh := do
  let db1 ← pass1? (buildVertDB mesh)
  let db2 ← pass2? db1
  (relaxSites len2 proj cfg mesh initialMco).foldlM
    (relaxLoopStep? len2 proj cfg initialMco mesh db2) mesh

/-- `MUV_UVSculpt.__stroke_apply`: dispatch on the configured tool. `target?`
abstracts the Pinch ray cast plus barycentric transform (see
`strokeApplyPinch`). -/
def strokeApply? (len2 : UV → ℚ) (proj : Nat → UV) (cfg : SculptConfig)
    (infos : List LoopInfo) (initialMco mco : UV) (target? : Option UV)
    (mesh : Mesh) : Option Mesh :=
  match cfg.tools with
  | Tool.grab => some (strokeApplyGrab infos initialMco mco mesh)
  | Tool.pinch => some (strokeApplyPinch len2 proj cfg initialMco target? mesh)
  | Tool.relax => relaxApply? len2 proj cfg initialMco mesh

/-- `MUV_UVSculpt.__stroke_exit`: a final GRAB write when the tool is GRAB,
nothing otherwise. The influence records are left untouched. -/
def strokeExit (infos : List LoopInfo) (cfg : SculptConfig) (initialMco mco : UV)
    (mesh : Mesh) : Mesh :=
  if cfg.tools = Tool.grab then strokeApplyGrab infos initialMco mco mesh
  else mesh

/-- The pointer/timer events handled by `MUV_UVSculpt.modal`. -/
inductive SculptEvent where
  | leftmousePress
  | leftmouseRelease
  | mousemove
  | timer
deriving DecidableEq, Repr

/-- The operator's per-stroke state: `self.__loop_info`, `self.__stroking`,
`self.current_mco`, `self.__initial_mco`. -/
structure SculptState where
  loop_info : List LoopInfo
  stroking : Bool
  current_mco : UV
  initial_mco : UV
deriving DecidableEq, Repr

/-- The viewport bounds used for the pass-through clip test. -/
structure Area where
  width : ℚ
  height : ℚ
deriving DecidableEq, Repr

/-- `MUV_UVSculpt.modal`: update `current_mco` from the event position, pass
events outside the viewport through unchanged, then dispatch
press/release/move/timer as the code does. -/
def modal? (len2 : UV → ℚ) (proj : Nat → UV) (cfg : SculptConfig) (area : Area)
    (target? : Option UV) (st : SculptState) (mesh : Mesh)
    (ev : SculptEvent) (pos : UV) : Option (SculptState × Mesh) :=
  let st := { st with current_mco := pos }
  if pos.u < 0 ∨ pos.u > area.width ∨ pos.v < 0 ∨ pos.v > area.height then
    some (st, mesh)
  else
    match ev with
    | SculptEvent.leftmousePress =>
      let st :=
        if ¬ st.stroking then
          { st with initial_mco := st.current_mco,
                    loop_info := strokeInit len2 proj cfg mesh st.current_mco }
        else st
      some ({ st with stroking := true }, mesh)
    | SculptEvent.leftmouseRelease =>
      if st.stroking then
        some ({ st with stroking := false },
              strokeExit st.loop_info cfg st.initial_mco st.current_mco mesh)
      else
        some ({ st with stroking := false }, mesh)
    | SculptEvent.mousemove =>
      if st.stroking then
        (strokeApply? len2 proj cfg st.loop_info st.initial_mco st.current_mco
          target? mesh).map (fun m => (st, m))
      else some (st, mesh)
    | SculptEvent.timer =>
      if st.stroking then
        (strokeApply? len2 proj cfg st.loop_info st.initial_mco st.current_mco
          target? mesh).map (fun m => (st, m))
      else some (st, mesh)

/-! ### Copy/paste UV (`op/copy_paste_uv.py`) -/

/-- A captured per-face sequence (`src_uvs[i]`, `src_pin_uvs[i]`,
`src_seams[i]`): the UVs, pin flags and seam flags of one face's loops. -/
structure FaceData where
  uvs : List UV
  pins : List Bool
  seams : List Bool
deriving DecidableEq, Repr

/-- One iteration of the rotate loop of the paste operators:
`x = lst.pop(); lst.insert(0, x)` — pop the last element and insert it at the
front. On an empty list the step here is the identity (Python's `pop` would
raise; the callers guard that case separately). -/
def rotStep {α : Type} (l : List α) : List α :=
  match l.getLast? with
  | none => []
  | some x => x :: l.dropLast

/-- `k` iterations of the rotate loop (`for _ in range(rotate_copied_uv)`). -/
def rotStepN {α : Type} (k : Nat) (l : List α) : List α :=
  match k with
  | 0 => l
  | k + 1 => rotStep (rotStepN k l)

/-- The paste operators' rotation of a captured per-face sequence: each of the
three component lists is right-rotated by `k` steps. -/
def rotateFace (k : Nat) (fd : FaceData) : FaceData :=
  ⟨rotStepN k fd.uvs, rotStepN k fd.pins, rotStepN k fd.seams⟩

/-- The paste operators' flip of a captured per-face sequence
(`suvs_fr.reverse()` etc.). -/
def flipFace (fd : FaceData) : FaceData :=
  ⟨fd.uvs.reverse, fd.pins.reverse, fd.seams.reverse⟩

/-- A Python exception escaping an operator (a crash, as opposed to a
reported warning with a `CANCELLED` return). -/
inductive PyErr where
  | nameError (n : String)
  | indexError
deriving DecidableEq, Repr

/-- An operator's normal return status. -/
inductive OpResult where
  | finished
  | cancelled
deriving DecidableEq, Repr

/-- The paste strategy enum: `N_N` (equal face counts) or `N_M`
(modulo-matched). -/
inductive PasteStrategy where
  | n_n
  | n_m
deriving DecidableEq, Repr

/-- `MUV_CPUVPasteUV.execute` (the plain paste operator). In this revision the
copy operator stores `props.src_info`, but this function still reads the names
`uv_layer`, `props.src_uvs`, `dest_uvs` and `dest_face_indices`; the locals
among them are never assigned in the function body, so CPython raises
`NameError` at their first evaluation: at `l[uv_layer].uv.copy()` as soon as a
selected face with loops is reached, otherwise (only for degenerate loopless
selected faces) at the `N_N` count check or at `enumerate(dest_face_indices)`.
The embedding returns `Except.error` at exactly those program points; the
claimed shape-mismatch report is unreachable. -/
def cpuvPasteExecute (srcInfoPresent hasUVLayer : Bool)
    (strategy : PasteStrategy) (mesh : Mesh) : Except PyErr OpResult :=
  if ¬ srcInfoPresent then Except.ok OpResult.cancelled
  else if ¬ hasUVLayer then Except.ok OpResult.cancelled
  else if mesh.any (fun f => f.select && !f.loops.isEmpty) then
    Except.error (PyErr.nameError "uv_layer")
  else if mesh.all (fun f => !f.select) then Except.ok OpResult.cancelled
  else
    match strategy with
    | PasteStrategy.n_n => Except.error (PyErr.nameError "src_uvs")
    | PasteStrategy.n_m => Except.error (PyErr.nameError "dest_face_indices")

/-- Write UV, pin flag and (optionally) seam flag of loop `(fi, li)`:
the body of the paste `zip` loop. The edge seam flag is modelled per loop. -/
def setLoopFull (mesh : Mesh) (fi li : Nat) (nuv : UV) (npin : Bool)
    (nseam : Option Bool) : Mesh :=
  match mesh[fi]? with
  | none => mesh
  | some f =>
    match f.loops[li]? with
    | none => mesh
    | some l =>
      let l' := { l with uv := nuv, pin := npin, seam := nseam.getD l.seam }
      mesh.set fi { f with loops := f.loops.set li l' }

/-- The `zip(bm.faces[idx].loops, suvs_fr, spuvs_fr, ss_fr)` write loop of the
paste operators: positions up to the shortest of the four sequences are
written. -/
def pasteFaceWrites (m : Mesh) (idx : Nat) (fd : FaceData)
    (copySeams : Bool) : Mesh :=
  let n := min (faceAt m idx).loops.length
             (min fd.uvs.length (min fd.pins.length fd.seams.length))
  (List.range n).foldl (fun m2 k =>
    setLoopFull m2 idx k (fd.uvs.getD k UV.zero) (fd.pins.getD k false)
      (if copySeams then some (fd.seams.getD k false) else none)) m

/-- The per-face source data chosen by the strategy: `src[i]` for `N_N`
(in range after the count check), `src[i % len(src)]` for `N_M`
(`src` is nonempty there). -/
def pasteSrcOf (strategy : PasteStrategy) (src : List FaceData) (i : Nat) :
    FaceData :=
  match strategy with
  | PasteStrategy.n_n => src.getD i ⟨[], [], []⟩
  | PasteStrategy.n_m => src.getD (i % src.length) ⟨[], [], []⟩

/-- The paste loop of `MUV_CPUVSelSeqPasteUV.execute`, over the destination
faces `(idx, duvLen)` (face index and its captured loop count) starting at
position `i`. A loop-count mismatch reports a warning and returns `CANCELLED`
with the writes made so far kept; an empty component list under a positive
rotation count would raise `IndexError` in `pop()`. -/
def selSeqPasteLoop (strategy : PasteStrategy) (src : List FaceData)
    (flip : Bool) (rot : Nat) (copySeams : Bool) :
    Nat → List (Nat × Nat) → Mesh → Except PyErr (OpResult × Mesh)
  | _, [], m => Except.ok (OpResult.finished, m)
  | i, d :: rest, m =>
    let fd := pasteSrcOf strategy src i
    if fd.uvs.length ≠ d.2 then Except.ok (OpResult.cancelled, m)
    else
      let fd := if flip then flipFace fd else fd
      if 0 < rot ∧ (fd.uvs.isEmpty ∨ fd.pins.isEmpty ∨ fd.seams.isEmpty) then
        Except.error PyErr.indexError
      else
        selSeqPasteLoop strategy src flip rot copySeams (i + 1) rest
          (pasteFaceWrites m d.1 (rotateFace rot fd) copySeams)

/-- `MUV_CPUVSelSeqPasteUV.execute`: the selection-sequence paste operator.
`src` models `props.src_uvs`/`src_pin_uvs`/`src_seams`; `histIdxs` models the
face indices of `bm.select_history` entries that are faces. -/
def selSeqPasteExecute (src : List FaceData) (hasUVLayer : Bool)
    (strategy : PasteStrategy) (flip : Bool) (rot : Nat) (copySeams : Bool)
    (histIdxs : List Nat) (mesh : Mesh) : Except PyErr (OpResult × Mesh) :=
  if src.isEmpty then Except.ok (OpResult.cancelled, mesh)
  else if ¬ hasUVLayer then Except.ok (OpResult.cancelled, mesh)
  else
    let dests := (histIdxs.filter (fun idx => (faceAt mesh idx).select)).map
      (fun idx => (idx, (faceAt mesh idx).loops.length))
    if dests.isEmpty then Except.ok (OpResult.cancelled, mesh)
    else if strategy = PasteStrategy.n_n ∧ src.length ≠ dests.length then
      Except.ok (OpResult.cancelled, mesh)
    else selSeqPasteLoop strategy src flip rot copySeams 0 dests mesh

/-! ### Read/write lemmas for the mesh accessors -/

lemma faceAt_eq_of_getElem? {m : Mesh} {fi : Nat} {f : Face}
    (h : m[fi]? = some f) : faceAt m fi = f := by
  simp [faceAt, List.getD_eq_getElem?_getD, h]

lemma setLoopUV_length (m : Mesh) (fi li : Nat) (x : UV) :
    (setLoopUV m fi li x).length = m.length := by
  unfold setLoopUV
  split
  · rfl
  · split
    · rfl
    · simp

/-- How a UV write changes a loop read: only the addressed in-range loop
changes, and only its `uv` field. -/
lemma loopAt_setLoopUV (m : Mesh) (fi li : Nat) (x : UV) (fj lj : Nat) :
    loopAt (setLoopUV m fi li x) fj lj =
      if fi = fj ∧ li = lj ∧ fi < m.length ∧ li < (faceAt m fi).loops.length
      then { loopAt m fj lj with uv := x }
      else loopAt m fj lj := by
  unfold setLoopUV
  split
  next hm =>
    have hge : m.length ≤ fi := by simpa using List.getElem?_eq_none_iff.mp hm
    rw [if_neg]
    rintro ⟨-, -, h3, -⟩
    omega
  next f hm =>
    have hfi : fi < m.length := (List.getElem?_eq_some_iff.mp hm).1
    have hf : faceAt m fi = f := faceAt_eq_of_getElem? hm
    split
    next hl =>
      have hge : f.loops.length ≤ li := by simpa using List.getElem?_eq_none_iff.mp hl
      rw [if_neg]
      rintro ⟨-, -, -, h4⟩
      rw [hf] at h4
      omega
    next l hl =>
      have hli : li < f.loops.length := (List.getElem?_eq_some_iff.mp hl).1
      have hlv : f.loops.getD li defaultLoop = l := by
        simp [List.getD_eq_getElem?_getD, hl]
      by_cases hfj : fi = fj
      · subst hfj
        have hset : (m.set fi { f with loops := f.loops.set li { l with uv := x } })[fi]? =
            some { f with loops := f.loops.set li { l with uv := x } } := by
          rw [List.getElem?_set_self]
          exact hfi
        by_cases hlj : li = lj
        · subst hlj
          rw [if_pos ⟨rfl, rfl, hfi, by rw [hf]; exact hli⟩]
          have : (f.loops.set li { l with uv := x })[li]? = some { l with uv := x } := by
            rw [List.getElem?_set_self]
            simpa using hli
          simp [loopAt, faceAt_eq_of_getElem? hset, List.getD_eq_getElem?_getD, this,
            hf, hl]
        · rw [if_neg (by rintro ⟨-, h2, -⟩; exact hlj h2)]
          have : (f.loops.set li { l with uv := x })[lj]? = f.loops[lj]? :=
            List.getElem?_set_ne hlj
          simp [loopAt, faceAt_eq_of_getElem? hset, List.getD_eq_getElem?_getD, this, hf]
      · rw [if_neg (by rintro ⟨h1, -⟩; exact hfj h1)]
        have : (m.set fi { f with loops := f.loops.set li { l with uv := x } })[fj]? =
            m[fj]? := List.getElem?_set_ne hfj
        simp [loopAt, faceAt, List.getD_eq_getElem?_getD, this]

lemma loopUVAt_setLoopUV_self {m : Mesh} {fi li : Nat} (x : UV)
    (h1 : fi < m.length) (h2 : li < (faceAt m fi).loops.length) :
    loopUVAt (setLoopUV m fi li x) fi li = x := by
  simp [loopUVAt, loopAt_setLoopUV, h1, h2]

lemma loopUVAt_setLoopUV_ne {fi li fj lj : Nat} (m : Mesh) (x : UV)
    (h : ¬ (fi = fj ∧ li = lj)) :
    loopUVAt (setLoopUV m fi li x) fj lj = loopUVAt m fj lj := by
  rw [loopUVAt, loopAt_setLoopUV, if_neg]
  · rfl
  · rintro ⟨h1, h2, -⟩
    exact h ⟨h1, h2⟩

lemma loopAt_setLoopUV_vert (m : Mesh) (fi li : Nat) (x : UV) (fj lj : Nat) :
    (loopAt (setLoopUV m fi li x) fj lj).vert = (loopAt m fj lj).vert := by
  rw [loopAt_setLoopUV]
  split <;> rfl

lemma loopAt_setLoopUV_pin (m : Mesh) (fi li : Nat) (x : UV) (fj lj : Nat) :
    (loopAt (setLoopUV m fi li x) fj lj).pin = (loopAt m fj lj).pin := by
  rw [loopAt_setLoopUV]
  split <;> rfl

lemma loopAt_setLoopUV_seam (m : Mesh) (fi li : Nat) (x : UV) (fj lj : Nat) :
    (loopAt (setLoopUV m fi li x) fj lj).seam = (loopAt m fj lj).seam := by
  rw [loopAt_setLoopUV]
  split <;> rfl

lemma faceAt_setLoopUV_select (m : Mesh) (fi li : Nat) (x : UV) (fj : Nat) :
    (faceAt (setLoopUV m fi li x) fj).select = (faceAt m fj).select := by
  unfold setLoopUV
  split
  · rfl
  next f hm =>
    split
    · rfl
    next l hl =>
      by_cases hfj : fi = fj
      · subst hfj
        have hfi : fi < m.length := (List.getElem?_eq_some_iff.mp hm).1
        have hset := List.getElem?_set_self (l := m)
          (a := { f with loops := f.loops.set li { l with uv := x } }) hfi
        simp [faceAt, List.getD_eq_getElem?_getD, hset, hm]
      · have : (m.set fi { f with loops := f.loops.set li { l with uv := x } })[fj]? =
            m[fj]? := List.getElem?_set_ne hfj
        simp [faceAt, List.getD_eq_getElem?_getD, this]

lemma faceAt_setLoopUV_loops_length (m : Mesh) (fi li : Nat) (x : UV) (fj : Nat) :
    (faceAt (setLoopUV m fi li x) fj).loops.length = (faceAt m fj).loops.length := by
  unfold setLoopUV
  split
  · rfl
  next f hm =>
    split
    · rfl
    next l hl =>
      by_cases hfj : fi = fj
      · subst hfj
        have hfi : fi < m.length := (List.getElem?_eq_some_iff.mp hm).1
        have hset := List.getElem?_set_self (l := m)
          (a := { f with loops := f.loops.set li { l with uv := x } }) hfi
        simp [faceAt, List.getD_eq_getElem?_getD, hset, hm]
      · have : (m.set fi { f with loops := f.loops.set li { l with uv := x } })[fj]? =
            m[fj]? := List.getElem?_set_ne hfj
        simp [faceAt, List.getD_eq_getElem?_getD, this]

/-! ### Rotation lemmas for the paste helpers -/

lemma rotStep_concat {α : Type} (xs : List α) (x : α) :
    rotStep (xs ++ [x]) = x :: xs := by
  simp [rotStep, List.getLast?_concat, List.dropLast_concat]

lemma rotStep_length {α : Type} (l : List α) : (rotStep l).length = l.length := by
  rcases eq_or_ne l [] with rfl | h
  · rfl
  · conv_lhs => rw [← List.dropLast_append_getLast h]
    rw [rotStep_concat, List.length_cons, List.length_dropLast]
    have : 0 < l.length := List.length_pos.mpr h
    omega

lemma rotate_one_rotStep {α : Type} (l : List α) : (rotStep l).rotate 1 = l := by
  rcases eq_or_ne l [] with rfl | h
  · rfl
  · conv_lhs => rw [← List.dropLast_append_getLast h]
    rw [rotStep_concat, List.rotate_cons_succ, List.rotate_zero,
      List.dropLast_append_getLast h]

lemma rotStepN_length {α : Type} (k : Nat) (l : List α) :
    (rotStepN k l).length = l.length := by
  induction k with
  | zero => rfl
  | succ k ih => rw [rotStepN, rotStep_length, ih]

lemma rotate_rotStepN {α : Type} (k : Nat) (l : List α) :
    (rotStepN k l).rotate k = l := by
  induction k with
  | zero => exact List.rotate_zero l
  | succ k ih =>
    rw [rotStepN, show k + 1 = 1 + k from Nat.add_comm k 1, ← List.rotate_rotate,
      rotate_one_rotStep, ih]

/-- Right-rotating a list by its own length reproduces the list. -/
lemma rotStepN_length_self {α : Type} (l : List α) : rotStepN l.length l = l := by
  have h1 : (rotStepN l.length l).rotate l.length = l := rotate_rotStepN _ _
  have h2 : (rotStepN l.length l).rotate (rotStepN l.length l).length =
      rotStepN l.length l := List.rotate_length _
  rw [rotStepN_length] at h2
  rw [h2] at h1
  exact h1

lemma rotStepN_add {α : Type} (a b : Nat) (l : List α) :
    rotStepN (a + b) l = rotStepN a (rotStepN b l) := by
  induction a with
  | zero => simp [rotStepN]
  | succ a ih => rw [Nat.succ_add, rotStepN, ih, rotStepN]

lemma rotStepN_mul_length {α : Type} (q : Nat) (l : List α) :
    rotStepN (l.length * q) l = l := by
  induction q with
  | zero => rfl
  | succ q ih =>
    rw [Nat.mul_succ, rotStepN_add, rotStepN_length_self, ih]

/-- Right-rotation by `k` steps only depends on `k` modulo the length. -/
lemma rotStepN_mod {α : Type} (k : Nat) (l : List α) :
    rotStepN k l = rotStepN (k % l.length) l := by
  rcases eq_or_ne l [] with rfl | h
  · rw [List.length_nil, Nat.mod_zero]
  · conv_lhs => rw [← Nat.div_add_mod k l.length]
    rw [rotStepN_add]
    have h2 := rotStepN_mul_length (k / l.length) (rotStepN (k % l.length) l)
    rw [rotStepN_length] at h2
    exact h2

/-! ### Influence-set lemmas -/

lemma mem_selectFaceLoops {len2 : UV → ℚ} {proj : Nat → UV} {cfg : SculptConfig}
    {mesh : Mesh} {imco : UV} {fi : Nat} {rec : LoopInfo}
    (h : rec ∈ selectFaceLoops len2 proj cfg mesh imco fi) :
    rec.face_idx = fi ∧
    rec.loop_idx < (faceAt mesh fi).loops.length ∧
    (faceAt mesh fi).select = true ∧
    len2 ((proj (loopAt mesh fi rec.loop_idx).vert).sub imco) < cfg.radius ∧
    rec = mkLoopInfo len2 proj cfg mesh imco fi rec.loop_idx := by
  rw [selectFaceLoops] at h
  split at h
  case isTrue hsel =>
    simp only [List.mem_filterMap, List.mem_range] at h
    obtain ⟨li, hli, hsome⟩ := h
    split at hsome
    case isTrue hd =>
      have hrec : rec = mkLoopInfo len2 proj cfg mesh imco fi li :=
        (Option.some.inj hsome).symm
      have hface : rec.face_idx = fi := by rw [hrec]; rfl
      have hloop : rec.loop_idx = li := by rw [hrec]; rfl
      rw [hface, hloop]
      exact ⟨rfl, hli, hsel, hd, hrec⟩
    case isFalse => exact absurd hsome (by simp)
  case isFalse => exact absurd h (by simp)

/-- Every influence record addresses an in-range loop of a selected face
within the brush radius, and is the record built for that loop. -/
lemma selectLoops_spec {len2 : UV → ℚ} {proj : Nat → UV} {cfg : SculptConfig}
    {mesh : Mesh} {imco : UV} :
    ∀ rec ∈ selectLoops len2 proj cfg mesh imco,
      rec.face_idx < mesh.length ∧
      rec.loop_idx < (faceAt mesh rec.face_idx).loops.length ∧
      (faceAt mesh rec.face_idx).select = true ∧
      len2 ((proj (loopAt mesh rec.face_idx rec.loop_idx).vert).sub imco) < cfg.radius ∧
      rec = mkLoopInfo len2 proj cfg mesh imco rec.face_idx rec.loop_idx := by
  intro rec h
  rw [selectLoops, List.mem_flatMap] at h
  obtain ⟨fi, hfi, h⟩ := h
  rw [List.mem_range] at hfi
  obtain ⟨hface, hli, hsel, hd, hrec⟩ := mem_selectFaceLoops h
  rw [hface]
  exact ⟨hfi, hli, hsel, hd, hrec⟩

/-- Distinct influence records address distinct `(face, loop)` sites. -/
lemma selectLoops_pairwise (len2 : UV → ℚ) (proj : Nat → UV) (cfg : SculptConfig)
    (mesh : Mesh) (imco : UV) :
    (selectLoops len2 proj cfg mesh imco).Pairwise
      (fun a b => ¬ (a.face_idx = b.face_idx ∧ a.loop_idx = b.loop_idx)) := by
  rw [selectLoops, List.pairwise_flatMap]
  constructor
  · intro fi hfi
    rw [selectFaceLoops]
    split
    · rw [List.pairwise_filterMap]
      refine List.Pairwise.imp ?_ (List.pairwise_lt_range _)
      intro li li' hlt b hb b' hb'
      simp only [] at hb hb'
      split at hb
      · replace hb : mkLoopInfo len2 proj cfg mesh imco fi li = b :=
          Option.some.inj (Option.mem_def.mp hb)
        split at hb'
        · replace hb' : mkLoopInfo len2 proj cfg mesh imco fi li' = b' :=
            Option.some.inj (Option.mem_def.mp hb')
          intro hc
          have h1 : b.loop_idx = li := by rw [← hb]; rfl
          have h2 : b'.loop_idx = li' := by rw [← hb']; rfl
          rw [h1, h2] at hc
          omega
        · cases hb'
      · cases hb
    · exact List.Pairwise.nil
  · refine List.Pairwise.imp ?_ (List.pairwise_lt_range _)
    intro fi fi' hlt x hx y hy hc
    have h1 : x.face_idx = fi := (mem_selectFaceLoops hx).1
    have h2 : y.face_idx = fi' := (mem_selectFaceLoops hy).1
    rw [h1, h2] at hc
    omega

/-! ### Write-fold lemmas -/

/-- One write of the per-record folds of the GRAB and PINCH branches: the
site's UV is replaced by a function of the record and of the site's current
UV. -/
def writeStep (g : LoopInfo → UV → UV) (m : Mesh) (rec : LoopInfo) : Mesh :=
  setLoopUV m rec.face_idx rec.loop_idx
    (g rec (loopUVAt m rec.face_idx rec.loop_idx))

lemma foldl_writeStep_notin (g : LoopInfo → UV → UV) :
    ∀ (infos : List LoopInfo) (m : Mesh) (fj lj : Nat),
      (∀ rec ∈ infos, ¬ (rec.face_idx = fj ∧ rec.loop_idx = lj)) →
      loopUVAt (infos.foldl (writeStep g) m) fj lj = loopUVAt m fj lj := by
  intro infos
  induction infos with
  | nil => intro m fj lj _; rfl
  | cons r rest ih =>
    intro m fj lj h
    rw [List.foldl_cons]
    rw [ih _ fj lj (fun rec hrec => h rec (List.mem_cons_of_mem _ hrec))]
    unfold writeStep
    exact loopUVAt_setLoopUV_ne m _ (h r (List.mem_cons_self _ _))

lemma foldl_writeStep_length (g : LoopInfo → UV → UV) :
    ∀ (infos : List LoopInfo) (m : Mesh),
      (infos.foldl (writeStep g) m).length = m.length := by
  intro infos
  induction infos with
  | nil => intro m; rfl
  | cons r rest ih =>
    intro m
    rw [List.foldl_cons, ih]
    unfold writeStep
    exact setLoopUV_length m _ _ _

lemma foldl_writeStep_faceLen (g : LoopInfo → UV → UV) :
    ∀ (infos : List LoopInfo) (m : Mesh) (fj : Nat),
      (faceAt (infos.foldl (writeStep g) m) fj).loops.length =
        (faceAt m fj).loops.length := by
  intro infos
  induction infos with
  | nil => intro m fj; rfl
  | cons r rest ih =>
    intro m fj
    rw [List.foldl_cons, ih]
    unfold writeStep
    exact faceAt_setLoopUV_loops_length m _ _ _ fj

lemma foldl_writeStep_select (g : LoopInfo → UV → UV) :
    ∀ (infos : List LoopInfo) (m : Mesh) (fj : Nat),
      (faceAt (infos.foldl (writeStep g) m) fj).select = (faceAt m fj).select := by
  intro infos
  induction infos with
  | nil => intro m fj; rfl
  | cons r rest ih =>
    intro m fj
    rw [List.foldl_cons, ih]
    unfold writeStep
    exact faceAt_setLoopUV_select m _ _ _ fj

lemma foldl_writeStep_vert (g : LoopInfo → UV → UV) :
    ∀ (infos : List LoopInfo) (m : Mesh) (fj lj : Nat),
      (loopAt (infos.foldl (writeStep g) m) fj lj).vert = (loopAt m fj lj).vert := by
  intro infos
  induction infos with
  | nil => intro m fj lj; rfl
  | cons r rest ih =>
    intro m fj lj
    rw [List.foldl_cons, ih]
    unfold writeStep
    exact loopAt_setLoopUV_vert m _ _ _ fj lj

lemma foldl_writeStep_pin (g : LoopInfo → UV → UV) :
    ∀ (infos : List LoopInfo) (m : Mesh) (fj lj : Nat),
      (loopAt (infos.foldl (writeStep g) m) fj lj).pin = (loopAt m fj lj).pin := by
  intro infos
  induction infos with
  | nil => intro m fj lj; rfl
  | cons r rest ih =>
    intro m fj lj
    rw [List.foldl_cons, ih]
    unfold writeStep
    exact loopAt_setLoopUV_pin m _ _ _ fj lj

lemma foldl_writeStep_seam (g : LoopInfo → UV → UV) :
    ∀ (infos : List LoopInfo) (m : Mesh) (fj lj : Nat),
      (loopAt (infos.foldl (writeStep g) m) fj lj).seam = (loopAt m fj lj).seam := by
  intro infos
  induction infos with
  | nil => intro m fj lj; rfl
  | cons r rest ih =>
    intro m fj lj
    rw [List.foldl_cons, ih]
    unfold writeStep
    exact loopAt_setLoopUV_seam m _ _ _ fj lj

/-- Evaluating the fold at a recorded site: when the records address pairwise
distinct in-range sites, each site ends at `g` of its record and of its UV in
the starting mesh (each site is written exactly once, so sequential writes act
as simultaneous ones). -/
lemma foldl_writeStep_eval (g : LoopInfo → UV → UV) :
    ∀ (infos : List LoopInfo) (m : Mesh),
      infos.Pairwise (fun a b => ¬ (a.face_idx = b.face_idx ∧ a.loop_idx = b.loop_idx)) →
      (∀ rec ∈ infos,
        rec.face_idx < m.length ∧
        rec.loop_idx < (faceAt m rec.face_idx).loops.length) →
      ∀ rec ∈ infos,
        loopUVAt (infos.foldl (writeStep g) m) rec.face_idx rec.loop_idx =
          g rec (loopUVAt m rec.face_idx rec.loop_idx) := by
  intro infos
  induction infos with
  | nil => intro m _ _ rec h; cases h
  | cons r rest ih =>
    intro m hpw hrange rec hmem
    rw [List.foldl_cons]
    rcases List.mem_cons.mp hmem with rfl | hmem'
    · have hr := hrange rec (List.mem_cons_self _ _)
      have hnot : ∀ b ∈ rest, ¬ (b.face_idx = rec.face_idx ∧ b.loop_idx = rec.loop_idx) := by
        intro b hb hc
        exact (List.pairwise_cons.mp hpw).1 b hb ⟨hc.1.symm, hc.2.symm⟩
      rw [foldl_writeStep_notin g rest _ _ _ hnot]
      unfold writeStep
      exact loopUVAt_setLoopUV_self _ hr.1 hr.2
    · have hpw' := (List.pairwise_cons.mp hpw).2
      have hne : ¬ (r.face_idx = rec.face_idx ∧ r.loop_idx = rec.loop_idx) :=
        (List.pairwise_cons.mp hpw).1 rec hmem'
      have hrange' : ∀ b ∈ rest,
          b.face_idx < (writeStep g m r).length ∧
          b.loop_idx < (faceAt (writeStep g m r) b.face_idx).loops.length := by
        intro b hb
        have hbr := hrange b (List.mem_cons_of_mem _ hb)
        unfold writeStep
        rw [setLoopUV_length, faceAt_setLoopUV_loops_length]
        exact hbr
      rw [ih (writeStep g m r) hpw' hrange' rec hmem']
      congr 1
      unfold writeStep
      exact loopUVAt_setLoopUV_ne m _ hne

/-- The per-record UV written by the GRAB branch, as a `writeStep` function
(the current UV is ignored: GRAB restarts from the captured UV). -/
def grabG (imco mco : UV) : LoopInfo → UV → UV :=
  fun info _ =>
    info.initial_uv.add (UV.div (UV.scale info.strength (mco.sub imco)) 100)

lemma strokeApplyGrab_eq_fold (infos : List LoopInfo) (imco mco : UV) (m : Mesh) :
    strokeApplyGrab infos imco mco m = infos.foldl (writeStep (grabG imco mco)) m := rfl

/-- The per-record UV written by the PINCH branch on a ray hit. -/
def pinchG (cfg : SculptConfig) (target : UV) : LoopInfo → UV → UV :=
  fun info cur =>
    cur.add (UV.div
      (if cfg.pinchInvert then UV.scale info.strength (cur.sub target)
       else UV.scale info.strength (target.sub cur)) 10)

lemma strokeApplyPinch_eq_fold (len2 : UV → ℚ) (proj : Nat → UV)
    (cfg : SculptConfig) (imco target : UV) (m : Mesh) :
    strokeApplyPinch len2 proj cfg imco (some target) m =
      (selectLoops len2 proj cfg m imco).foldl (writeStep (pinchG cfg target)) m := rfl

/-! ### The claims -/

/-- C2: the falloff `__get_strength` returns `0` for `d > r`, `f` for `d < 0`
and `f*(r-d)/r` otherwise (for `r > 0`, `f ≥ 0`); hence it is `f` at the
center, `0` at the rim and beyond, and monotonically non-increasing on
`[0, r]`. -/
theorem getStrength_falloff (d r f : ℚ) (hr : 0 < r) (hf : 0 ≤ f) :
    (r < d → getStrength d r f = 0) ∧
    (d < 0 → getStrength d r f = f) ∧
    (0 ≤ d → d ≤ r → getStrength d r f = f * (r - d) / r) ∧
    getStrength 0 r f = f ∧
    getStrength r r f = 0 ∧
    (∀ d1 d2 : ℚ, 0 ≤ d1 → d1 ≤ d2 → d2 ≤ r →
      getStrength d2 r f ≤ getStrength d1 r f) := by
  have hr0 : r ≠ 0 := ne_of_gt hr
  refine ⟨?_, ?_, ?_, ?_, ?_, ?_⟩
  · intro h
    simp [getStrength, h]
  · intro h
    have h1 : ¬ d > r := by linarith
    simp [getStrength, h1, h]
  · intro h0 h1
    have h2 : ¬ d > r := not_lt.mpr h1
    have h3 : ¬ d < 0 := not_lt.mpr h0
    simp only [getStrength, if_neg h2, if_neg h3]
    ring
  · simp only [getStrength, if_neg (not_lt.mpr hr.le), if_neg (lt_irrefl 0)]
    field_simp
  · have h1 : ¬ r > r := lt_irrefl r
    have h2 : ¬ r < 0 := not_lt.mpr hr.le
    simp [getStrength, h1, h2]
  · intro d1 d2 h1 h12 h2r
    have hc1 : ¬ d1 > r := not_lt.mpr (le_trans h12 h2r)
    have hc2 : ¬ d2 > r := not_lt.mpr h2r
    have hc3 : ¬ d1 < 0 := not_lt.mpr h1
    have hc4 : ¬ d2 < 0 := not_lt.mpr (le_trans h1 h12)
    simp only [getStrength, if_neg hc1, if_neg hc2, if_neg hc3, if_neg hc4]
    have hnum : (r - d2) * f ≤ (r - d1) * f :=
      mul_le_mul_of_nonneg_right (by linarith) hf
    gcongr

/-- Witness for C2 at `d = 3`, `r = 10`, `f = 1`. -/
theorem getStrength_falloff_witness :
    getStrength 0 10 1 = 1 ∧ getStrength 10 10 1 = 0 ∧ getStrength 3 10 1 = 1 * (10 - 3) / 10 := by
  have h := getStrength_falloff 3 10 1 (by norm_num) (by norm_num)
  exact ⟨h.2.2.2.1, h.2.2.2.2.1, h.2.2.1 (by norm_num) (by norm_num)⟩

/-- C8: right-rotating a captured per-face sequence of length `N` by `N`
steps reproduces it, rotation by `k` steps only depends on `k mod N`, and
flipping twice reproduces it. -/
theorem rotateFace_flipFace_roundtrip (fd : FaceData) (k : Nat)
    (hp : fd.pins.length = fd.uvs.length) (hs : fd.seams.length = fd.uvs.length) :
    rotateFace fd.uvs.length fd = fd ∧
    rotateFace k fd = rotateFace (k % fd.uvs.length) fd ∧
    flipFace (flipFace fd) = fd := by
  rcases fd with ⟨uvs, pins, seams⟩
  dsimp only at hp hs ⊢
  refine ⟨?_, ?_, by simp [flipFace]⟩
  · simp only [rotateFace, FaceData.mk.injEq]
    refine ⟨rotStepN_length_self uvs, ?_, ?_⟩
    · rw [← hp]
      exact rotStepN_length_self pins
    · rw [← hs]
      exact rotStepN_length_self seams
  · simp only [rotateFace, FaceData.mk.injEq]
    refine ⟨rotStepN_mod k uvs, ?_, ?_⟩
    · rw [rotStepN_mod k pins, hp]
    · rw [rotStepN_mod k seams, hs]

/-- Witness for C8: a concrete quad-face capture rotated by 7 steps. -/
theorem rotateFace_flipFace_roundtrip_witness :
    rotateFace 4 ⟨[⟨0,0⟩, ⟨1,0⟩, ⟨1,1⟩, ⟨0,1⟩], [true, false, true, false],
        [false, false, true, true]⟩ =
      ⟨[⟨0,0⟩, ⟨1,0⟩, ⟨1,1⟩, ⟨0,1⟩], [true, false, true, false],
        [false, false, true, true]⟩ ∧
    rotateFace 7 ⟨[⟨0,0⟩, ⟨1,0⟩, ⟨1,1⟩, ⟨0,1⟩], [true, false, true, false],
        [false, false, true, true]⟩ =
      rotateFace 3 ⟨[⟨0,0⟩, ⟨1,0⟩, ⟨1,1⟩, ⟨0,1⟩], [true, false, true, false],
        [false, false, true, true]⟩ := by
  have h := rotateFace_flipFace_roundtrip
    ⟨[⟨0,0⟩, ⟨1,0⟩, ⟨1,1⟩, ⟨0,1⟩], [true, false, true, false],
      [false, false, true, true]⟩ 7 (by decide) (by decide)
  exact ⟨h.1, h.2.1⟩

/-- C5: a Pinch tick whose ray cast hits no face leaves every UV (indeed the
whole mesh) unchanged, without an error. -/
theorem pinch_ray_miss_noop (len2 : UV → ℚ) (proj : Nat → UV)
    (cfg : SculptConfig) (initialMco : UV) (mesh : Mesh) :
    strokeApplyPinch len2 proj cfg initialMco none mesh = mesh := rfl

/-- Computable absolute value on ℚ (kernel-reducible). -/
def qabs (a : ℚ) : ℚ := if a < 0 then -a else a

/-- A concrete instance of the abstract host vector length for the scenarios:
every scenario point lies on the horizontal axis through the cursor, where
this L1 length agrees with the host's Euclidean length. -/
def scenLen2 : UV → ℚ := fun d => qabs d.u + qabs d.v

/-- Scenario projection: the vertex projects to `(5, 0)`, at distance 5 from
the initial cursor `(0, 0)`. -/
def scenProj : Nat → UV := fun _ => ⟨5, 0⟩

/-- Scenario mesh: one selected single-corner face with UV `(0.2, 0.3)`. -/
def scenMesh : Mesh := [⟨true, [⟨0, ⟨1/5, 3/10⟩, false, false⟩]⟩]

/-- Scenario configuration for GRAB: radius 10, strength factor 1. -/
def scenCfg : SculptConfig := ⟨10, 1, Tool.grab, false, "HC"⟩

/-- Scenario configuration for PINCH: radius 10, strength factor 1. -/
def scenCfgPinch : SculptConfig := ⟨10, 1, Tool.pinch, false, "HC"⟩

/-- The scenario influence set: the single loop, at distance 5, with strength
`(10-5)*1/10 = 1/2`. -/
lemma scenInfos_eq :
    strokeInit scenLen2 scenProj scenCfg scenMesh ⟨0, 0⟩ =
      [⟨0, 0, ⟨5, 0⟩, ⟨1/5, 3/10⟩, 1/2⟩] := by
  norm_num [strokeInit, selectLoops, selectFaceLoops, mkLoopInfo, scenLen2, qabs,
    scenProj, scenCfg, scenMesh, faceAt, loopAt, getStrength, UV.sub,
    List.range_succ, List.filterMap_cons, List.getElem?_cons_zero]

/-- The PINCH scenario influence set (same geometry, same strength). -/
lemma scenInfosPinch_eq :
    selectLoops scenLen2 scenProj scenCfgPinch scenMesh ⟨0, 0⟩ =
      [⟨0, 0, ⟨5, 0⟩, ⟨1/5, 3/10⟩, 1/2⟩] := by
  norm_num [selectLoops, selectFaceLoops, mkLoopInfo, scenLen2, qabs,
    scenProj, scenCfgPinch, scenMesh, faceAt, loopAt, getStrength, UV.sub,
    List.range_succ, List.filterMap_cons, List.getElem?_cons_zero]

/-- C3: each GRAB Apply tick rewrites every captured record's loop UV to
`initialUV + (cursor - cursorInitial) * strength / 100`, recomputed from the
captured UV (`m` is the mesh at apply time: its UVs may have changed since
capture, its shape has not); with `cursor = cursorInitial` every influenced
UV is exactly the captured UV; and in the concrete scenario (radius 10,
cursor dragged `(0,0) → (10,0)`, one loop at projected distance 5 with
initial UV `(0.2, 0.3)`, strength factor 1) the final UV is `(0.25, 0.3)`. -/
theorem grab_apply_formula (len2 : UV → ℚ) (proj : Nat → UV) (cfg : SculptConfig)
    (mesh m : Mesh) (imco mco : UV)
    (hlen : m.length = mesh.length)
    (hface : ∀ fi, (faceAt m fi).loops.length = (faceAt mesh fi).loops.length) :
    (∀ rec ∈ strokeInit len2 proj cfg mesh imco,
      loopUVAt (strokeApplyGrab (strokeInit len2 proj cfg mesh imco) imco mco m)
          rec.face_idx rec.loop_idx =
        rec.initial_uv.add (UV.div (UV.scale rec.strength (mco.sub imco)) 100)) ∧
    (mco = imco →
      ∀ rec ∈ strokeInit len2 proj cfg mesh imco,
        loopUVAt (strokeApplyGrab (strokeInit len2 proj cfg mesh imco) imco mco m)
            rec.face_idx rec.loop_idx = rec.initial_uv) ∧
    loopUVAt (strokeApplyGrab (strokeInit scenLen2 scenProj scenCfg scenMesh ⟨0, 0⟩)
        ⟨0, 0⟩ ⟨10, 0⟩ scenMesh) 0 0 = ⟨1/4, 3/10⟩ := by
  have hmain : ∀ rec ∈ strokeInit len2 proj cfg mesh imco,
      loopUVAt (strokeApplyGrab (strokeInit len2 proj cfg mesh imco) imco mco m)
          rec.face_idx rec.loop_idx =
        rec.initial_uv.add (UV.div (UV.scale rec.strength (mco.sub imco)) 100) := by
    intro rec hrec
    rw [strokeApplyGrab_eq_fold]
    have hrange : ∀ b ∈ strokeInit len2 proj cfg mesh imco,
        b.face_idx < m.length ∧ b.loop_idx < (faceAt m b.face_idx).loops.length := by
      intro b hb
      have hs := selectLoops_spec b hb
      rw [hlen, hface b.face_idx]
      exact ⟨hs.1, hs.2.1⟩
    exact foldl_writeStep_eval (grabG imco mco) _ m
      (selectLoops_pairwise len2 proj cfg mesh imco) hrange rec hrec
  refine ⟨hmain, ?_, ?_⟩
  · intro he rec hrec
    rw [hmain rec hrec, he]
    have h0 : imco.sub imco = (⟨0, 0⟩ : UV) := by simp [UV.sub]
    rw [h0]
    show rec.initial_uv.add (UV.div (UV.scale rec.strength ⟨0, 0⟩) 100) = rec.initial_uv
    rcases huv : rec.initial_uv with ⟨a, b⟩
    simp [UV.scale, UV.div, UV.add]
  · rw [scenInfos_eq]
    norm_num [strokeApplyGrab, setLoopUV, loopUVAt, loopAt, faceAt, scenMesh,
      UV.add, UV.scale, UV.div, UV.sub, List.getD_cons_zero]

/-- Witness for C3: the concrete scenario, with the shape hypotheses
discharged at `scenMesh`. -/
theorem grab_apply_formula_witness :
    loopUVAt (strokeApplyGrab (strokeInit scenLen2 scenProj scenCfg scenMesh ⟨0, 0⟩)
        ⟨0, 0⟩ ⟨10, 0⟩ scenMesh) 0 0 = ⟨1/4, 3/10⟩ :=
  (grab_apply_formula scenLen2 scenProj scenCfg scenMesh scenMesh ⟨0, 0⟩ ⟨10, 0⟩ rfl
    (fun _ => rfl)).2.2

/-- C6: on a PINCH tick whose ray cast yields the barycentric target UV
`target`, every influenced loop's UV becomes `currentUV + delta / 10` with
`delta = (target - currentUV) * strength`, sign-flipped under the invert
option. -/
theorem pinch_apply_formula (len2 : UV → ℚ) (proj : Nat → UV) (cfg : SculptConfig)
    (imco target : UV) (mesh : Mesh) :
    ∀ rec ∈ selectLoops len2 proj cfg mesh imco,
      loopUVAt (strokeApplyPinch len2 proj cfg imco (some target) mesh)
          rec.face_idx rec.loop_idx =
        (loopUVAt mesh rec.face_idx rec.loop_idx).add
          (UV.div (if cfg.pinchInvert
            then UV.scale rec.strength ((loopUVAt mesh rec.face_idx rec.loop_idx).sub target)
            else UV.scale rec.strength (target.sub (loopUVAt mesh rec.face_idx rec.loop_idx)))
            10) := by
  intro rec hrec
  rw [strokeApplyPinch_eq_fold]
  have hrange : ∀ b ∈ selectLoops len2 proj cfg mesh imco,
      b.face_idx < mesh.length ∧ b.loop_idx < (faceAt mesh b.face_idx).loops.length :=
    fun b hb => ⟨(selectLoops_spec b hb).1, (selectLoops_spec b hb).2.1⟩
  exact foldl_writeStep_eval (pinchG cfg target) _ mesh
    (selectLoops_pairwise len2 proj cfg mesh imco) hrange rec hrec

/-- Witness for C6: the scenario loop pulled a tenth of half-way toward the
target UV `(1, 1)`. -/
theorem pinch_apply_formula_witness :
    loopUVAt (strokeApplyPinch scenLen2 scenProj scenCfgPinch ⟨0, 0⟩ (some ⟨1, 1⟩)
        scenMesh) 0 0 = ⟨6/25, 67/200⟩ := by
  have h := pinch_apply_formula scenLen2 scenProj scenCfgPinch ⟨0, 0⟩ ⟨1, 1⟩ scenMesh
    ⟨0, 0, ⟨5, 0⟩, ⟨1/5, 3/10⟩, 1/2⟩
    (by rw [scenInfosPinch_eq]; exact List.mem_singleton.mpr rfl)
  refine h.trans ?_
  norm_num [loopUVAt, loopAt, faceAt, scenMesh, scenCfgPinch,
    UV.add, UV.scale, UV.div, UV.sub, List.getD_cons_zero]

/-- C10: a GRAB Apply tick and the GRAB Exit pass write only the UVs of the
recorded loops: the mesh keeps its face count, every face keeps its selection
flag and loop count, every loop keeps its vertex, pin flag and seam flag, and
every loop outside the influence set keeps its UV. -/
theorem grab_frame_condition (infos : List LoopInfo) (cfg : SculptConfig)
    (imco mco : UV) (mesh : Mesh) :
    ((strokeApplyGrab infos imco mco mesh).length = mesh.length ∧
     (∀ fj, (faceAt (strokeApplyGrab infos imco mco mesh) fj).select =
              (faceAt mesh fj).select ∧
            (faceAt (strokeApplyGrab infos imco mco mesh) fj).loops.length =
              (faceAt mesh fj).loops.length) ∧
     (∀ fj lj,
        (loopAt (strokeApplyGrab infos imco mco mesh) fj lj).vert =
          (loopAt mesh fj lj).vert ∧
        (loopAt (strokeApplyGrab infos imco mco mesh) fj lj).pin =
          (loopAt mesh fj lj).pin ∧
        (loopAt (strokeApplyGrab infos imco mco mesh) fj lj).seam =
          (loopAt mesh fj lj).seam) ∧
     (∀ fj lj, (∀ rec ∈ infos, ¬ (rec.face_idx = fj ∧ rec.loop_idx = lj)) →
        loopUVAt (strokeApplyGrab infos imco mco mesh) fj lj = loopUVAt mesh fj lj)) ∧
    ((strokeExit infos cfg imco mco mesh).length = mesh.length ∧
     (∀ fj, (faceAt (strokeExit infos cfg imco mco mesh) fj).select =
              (faceAt mesh fj).select ∧
            (faceAt (strokeExit infos cfg imco mco mesh) fj).loops.length =
              (faceAt mesh fj).loops.length) ∧
     (∀ fj lj,
        (loopAt (strokeExit infos cfg imco mco mesh) fj lj).vert =
          (loopAt mesh fj lj).vert ∧
        (loopAt (strokeExit infos cfg imco mco mesh) fj lj).pin =
          (loopAt mesh fj lj).pin ∧
        (loopAt (strokeExit infos cfg imco mco mesh) fj lj).seam =
          (loopAt mesh fj lj).seam) ∧
     (∀ fj lj, (∀ rec ∈ infos, ¬ (rec.face_idx = fj ∧ rec.loop_idx = lj)) →
        loopUVAt (strokeExit infos cfg imco mco mesh) fj lj = loopUVAt mesh fj lj)) := by
  have hA : (strokeApplyGrab infos imco mco mesh).length = mesh.length ∧
      (∀ fj, (faceAt (strokeApplyGrab infos imco mco mesh) fj).select =
               (faceAt mesh fj).select ∧
             (faceAt (strokeApplyGrab infos imco mco mesh) fj).loops.length =
               (faceAt mesh fj).loops.length) ∧
      (∀ fj lj,
        (loopAt (strokeApplyGrab infos imco mco mesh) fj lj).vert =
          (loopAt mesh fj lj).vert ∧
        (loopAt (strokeApplyGrab infos imco mco mesh) fj lj).pin =
          (loopAt mesh fj lj).pin ∧
        (loopAt (strokeApplyGrab infos imco mco mesh) fj lj).seam =
          (loopAt mesh fj lj).seam) ∧
      (∀ fj lj, (∀ rec ∈ infos, ¬ (rec.face_idx = fj ∧ rec.loop_idx = lj)) →
        loopUVAt (strokeApplyGrab infos imco mco mesh) fj lj = loopUVAt mesh fj lj) := by
    rw [strokeApplyGrab_eq_fold]
    exact ⟨foldl_writeStep_length _ infos mesh,
      fun fj => ⟨foldl_writeStep_select _ infos mesh fj,
        foldl_writeStep_faceLen _ infos mesh fj⟩,
      fun fj lj => ⟨foldl_writeStep_vert _ infos mesh fj lj,
        foldl_writeStep_pin _ infos mesh fj lj,
        foldl_writeStep_seam _ infos mesh fj lj⟩,
      fun fj lj h => foldl_writeStep_notin _ infos mesh fj lj h⟩
  refine ⟨hA, ?_⟩
  rw [strokeExit]
  split
  · exact hA
  · exact ⟨rfl, fun fj => ⟨rfl, rfl⟩, fun fj lj => ⟨rfl, rfl, rfl⟩,
      fun fj lj _ => rfl⟩

/-- Witness for C10: in the GRAB scenario, a loop site outside the influence
set (face 5) keeps its UV through Apply and Exit. -/
theorem grab_frame_condition_witness :
    loopUVAt (strokeApplyGrab (strokeInit scenLen2 scenProj scenCfg scenMesh ⟨0, 0⟩)
        ⟨0, 0⟩ ⟨10, 0⟩ scenMesh) 5 0 = loopUVAt scenMesh 5 0 ∧
    loopUVAt (strokeExit (strokeInit scenLen2 scenProj scenCfg scenMesh ⟨0, 0⟩)
        scenCfg ⟨0, 0⟩ ⟨10, 0⟩ scenMesh) 5 0 = loopUVAt scenMesh 5 0 := by
  have h := grab_frame_condition (strokeInit scenLen2 scenProj scenCfg scenMesh ⟨0, 0⟩)
    scenCfg ⟨0, 0⟩ ⟨10, 0⟩ scenMesh
  have hnot : ∀ rec ∈ strokeInit scenLen2 scenProj scenCfg scenMesh ⟨0, 0⟩,
      ¬ (rec.face_idx = 5 ∧ rec.loop_idx = 0) := by
    rw [scenInfos_eq]
    intro rec hrec
    rcases List.mem_singleton.mp hrec with rfl
    simp
  exact ⟨h.1.2.2.2 5 0 hnot, h.2.2.2.2 5 0 hnot⟩

/-- The mid-stroke state used for the C7 instances: stroking, with the
scenario's captured influence record, initial cursor `(0, 0)`. -/
def c7state : SculptState :=
  ⟨[⟨0, 0, ⟨5, 0⟩, ⟨1/5, 3/10⟩, 1/2⟩], true, ⟨0, 0⟩, ⟨0, 0⟩⟩

/-- C7 counterexample: a release received while Stroking runs Exit and leaves
the state machine Idle, but the influence set is NOT cleared — after this
concrete release it still holds the captured record. -/
theorem stroke_release_no_clear_cex :
    (modal? scenLen2 scenProj scenCfg ⟨100, 100⟩ none c7state scenMesh
        SculptEvent.leftmouseRelease ⟨10, 0⟩).map (fun r => r.1.loop_info) =
      some [⟨0, 0, ⟨5, 0⟩, ⟨1/5, 3/10⟩, 1/2⟩] ∧
    ([⟨0, 0, ⟨5, 0⟩, ⟨1/5, 3/10⟩, 1/2⟩] : List LoopInfo) ≠ [] := by
  constructor
  · norm_num [modal?, c7state]
  · simp

/-- C7 (amended): a release received while Stroking calls Exit — which
performs the final GRAB write pass when the tool is GRAB and writes nothing
otherwise — and returns the state to Idle (`stroking = false`); the influence
set is retained, not cleared (it is rebuilt only at the next Init). -/
theorem stroke_release_transition (len2 : UV → ℚ) (proj : Nat → UV)
    (cfg : SculptConfig) (area : Area) (target? : Option UV) (st : SculptState)
    (mesh : Mesh) (pos : UV)
    (hstroking : st.stroking = true)
    (hin : ¬ (pos.u < 0 ∨ pos.u > area.width ∨ pos.v < 0 ∨ pos.v > area.height)) :
    modal? len2 proj cfg area target? st mesh SculptEvent.leftmouseRelease pos =
      some ({ st with current_mco := pos, stroking := false },
        strokeExit st.loop_info cfg st.initial_mco pos mesh) ∧
    ({ st with current_mco := pos, stroking := false } : SculptState).loop_info =
      st.loop_info ∧
    strokeExit st.loop_info cfg st.initial_mco pos mesh =
      (if cfg.tools = Tool.grab
       then strokeApplyGrab st.loop_info st.initial_mco pos mesh else mesh) := by
  refine ⟨?_, rfl, rfl⟩
  simp only [modal?]
  rw [if_neg hin]
  simp [hstroking]

/-- Witness for C7's amended theorem: the concrete release of the
counterexample, with both hypotheses discharged. -/
theorem stroke_release_transition_witness :
    modal? scenLen2 scenProj scenCfg ⟨100, 100⟩ none c7state scenMesh
        SculptEvent.leftmouseRelease ⟨10, 0⟩ =
      some ({ c7state with current_mco := ⟨10, 0⟩, stroking := false },
        strokeExit c7state.loop_info scenCfg c7state.initial_mco ⟨10, 0⟩ scenMesh) :=
  (stroke_release_transition scenLen2 scenProj scenCfg ⟨100, 100⟩ none c7state
    scenMesh ⟨10, 0⟩ rfl (by norm_num)).1

/-! ### Relax totality: helper lemmas (for C9) -/

lemma opt_eq_some_getD {α : Type} (o : Option α) (d : α) (h : o.isSome) :
    o = some (o.getD d) := by
  cases o
  · simp at h
  · simp

lemma mapM_eq_some_map {α β : Type} (f : α → Option β) (g : α → β) :
    ∀ l : List α, (∀ a ∈ l, f a = some (g a)) → l.mapM f = some (l.map g) := by
  intro l
  induction l with
  | nil => intro _; rfl
  | cons a l ih =>
    intro h
    rw [List.mapM_cons, h a (List.mem_cons_self a l),
      ih (fun b hb => h b (List.mem_cons_of_mem a hb))]
    rfl

lemma foldlM_eq_some_foldl {σ α : Type} (F : σ → α → Option σ) (G : σ → α → σ) :
    ∀ (l : List α) (s : σ), (∀ a ∈ l, ∀ t, F t a = some (G t a)) →
      l.foldlM F s = some (l.foldl G s) := by
  intro l
  induction l with
  | nil => intro s _; rfl
  | cons a l ih =>
    intro s h
    rw [List.foldlM_cons, h a (List.mem_cons_self a l) s]
    show (l.foldlM F (G s a)) = _
    rw [ih (G s a) (fun b hb t => h b (List.mem_cons_of_mem a hb) t)]
    rfl

lemma foldlM_isSome {σ α : Type} (F : σ → α → Option σ) :
    ∀ (l : List α) (s : σ), (∀ a ∈ l, ∀ t, (F t a).isSome) →
      (l.foldlM F s).isSome := by
  intro l
  induction l with
  | nil => intro s _; rfl
  | cons a l ih =>
    intro s h
    obtain ⟨s1, hs1⟩ := Option.isSome_iff_exists.mp (h a (List.mem_cons_self a l) s)
    rw [List.foldlM_cons, hs1]
    show (l.foldlM F s1).isSome
    exact ih s1 (fun b hb t => h b (List.mem_cons_of_mem a hb) t)

/-- Keyed lookup on the raw `vert_db` (`vert_db[v]["loops"]`). -/
def dbFindRec? (db : VertDB) (v : Nat) : Option (List LoopRec) :=
  (db.find? (fun e => e.1 == v)).map Prod.snd

lemma dbAdd_find_self (db : VertDB) (v : Nat) (r : LoopRec) :
    (dbFindRec? (dbAdd db v r) v).isSome := by
  induction db with
  | nil => simp [dbAdd, dbFindRec?, List.find?]
  | cons e rest ih =>
    rw [dbAdd]
    split
    · simp_all [dbFindRec?, List.find?]
    next hne =>
      rw [dbFindRec?, List.find?]
      have : (e.1 == v) = false := by simpa using hne
      rw [this]
      exact ih

lemma dbAdd_find_mono (db : VertDB) (v w : Nat) (r : LoopRec)
    (h : (dbFindRec? db w).isSome) : (dbFindRec? (dbAdd db v r) w).isSome := by
  induction db with
  | nil => simp [dbFindRec?, List.find?] at h
  | cons e rest ih =>
    rw [dbAdd]
    split
    next heq =>
      rw [dbFindRec?, List.find?] at h ⊢
      rcases hbeq : (e.1 == w) with _ | _
      · rw [hbeq] at h
        simpa using h
      · simp
    next hne =>
      rw [dbFindRec?, List.find?] at h ⊢
      rcases hbeq : (e.1 == w) with _ | _
      · rw [hbeq] at h
        exact ih h
      · simp

lemma dbAdd_entries_ne (db : VertDB) (v : Nat) (r : LoopRec)
    (h : ∀ e ∈ db, e.2 ≠ []) : ∀ e ∈ dbAdd db v r, e.2 ≠ [] := by
  induction db with
  | nil =>
    intro e he
    rw [dbAdd] at he
    rcases List.mem_singleton.mp he with rfl
    simp
  | cons e0 rest ih =>
    intro e he
    rw [dbAdd] at he
    split at he
    · rcases List.mem_cons.mp he with rfl | hmem
      · simp
      · exact h e (List.mem_cons_of_mem _ hmem)
    · rcases List.mem_cons.mp he with rfl | hmem
      · exact h e (List.mem_cons_self _ _)
      · exact ih (fun e' he' => h e' (List.mem_cons_of_mem _ he')) e hmem

lemma dbAdd_recs_sub (L : List (Nat × LoopRec)) (db : VertDB) (v : Nat) (r : LoopRec)
    (hdb : ∀ e ∈ db, ∀ s ∈ e.2, (e.1, s) ∈ L) (hvr : (v, r) ∈ L) :
    ∀ e ∈ dbAdd db v r, ∀ s ∈ e.2, (e.1, s) ∈ L := by
  induction db with
  | nil =>
    intro e he s hs
    rw [dbAdd] at he
    rcases List.mem_singleton.mp he with rfl
    rcases List.mem_singleton.mp hs with rfl
    exact hvr
  | cons e0 rest ih =>
    intro e he s hs
    rw [dbAdd] at he
    split at he
    next heq =>
      rcases List.mem_cons.mp he with rfl | hmem
      · rcases List.mem_append.mp hs with hs' | hs'
        · exact hdb e0 (List.mem_cons_self _ _) s hs'
        · rcases List.mem_singleton.mp hs' with rfl
          rw [heq]
          exact hvr
      · exact hdb e (List.mem_cons_of_mem _ hmem) s hs
    next hne =>
      rcases List.mem_cons.mp he with rfl | hmem
      · exact hdb e (List.mem_cons_self _ _) s hs
      · exact ih (fun e' he' => hdb e' (List.mem_cons_of_mem _ he')) e hmem s hs

lemma foldl_dbAdd_mono (recs : List (Nat × LoopRec)) :
    ∀ (db0 : VertDB) (w : Nat), (dbFindRec? db0 w).isSome →
      (dbFindRec? (recs.foldl (fun db p => dbAdd db p.1 p.2) db0) w).isSome := by
  induction recs with
  | nil => intro db0 w h; exact h
  | cons p rest ih =>
    intro db0 w h
    rw [List.foldl_cons]
    exact ih _ w (dbAdd_find_mono db0 p.1 w p.2 h)

lemma foldl_dbAdd_mem (recs : List (Nat × LoopRec)) :
    ∀ (db0 : VertDB) (v : Nat) (r : LoopRec), (v, r) ∈ recs →
      (dbFindRec? (recs.foldl (fun db p => dbAdd db p.1 p.2) db0) v).isSome := by
  induction recs with
  | nil => intro db0 v r h; cases h
  | cons p rest ih =>
    intro db0 v r h
    rw [List.foldl_cons]
    rcases List.mem_cons.mp h with heq | hmem
    · rw [← heq]
      exact foldl_dbAdd_mono rest _ v (dbAdd_find_self db0 v r)
    · exact ih _ v r hmem

lemma foldl_dbAdd_entries (recs : List (Nat × LoopRec)) :
    ∀ db0 : VertDB, (∀ e ∈ db0, e.2 ≠ []) →
      ∀ e ∈ recs.foldl (fun db p => dbAdd db p.1 p.2) db0, e.2 ≠ [] := by
  induction recs with
  | nil => intro db0 h; exact h
  | cons p rest ih =>
    intro db0 h
    rw [List.foldl_cons]
    exact ih _ (dbAdd_entries_ne db0 p.1 p.2 h)

lemma foldl_dbAdd_recs (L : List (Nat × LoopRec)) (recs : List (Nat × LoopRec)) :
    ∀ db0 : VertDB, (∀ e ∈ db0, ∀ s ∈ e.2, (e.1, s) ∈ L) → (∀ p ∈ recs, p ∈ L) →
      ∀ e ∈ recs.foldl (fun db p => dbAdd db p.1 p.2) db0, ∀ s ∈ e.2, (e.1, s) ∈ L := by
  induction recs with
  | nil => intro db0 h _; exact h
  | cons p rest ih =>
    intro db0 h hrecs
    rw [List.foldl_cons]
    refine ih _ ?_ (fun q hq => hrecs q (List.mem_cons_of_mem _ hq))
    exact dbAdd_recs_sub L db0 p.1 p.2 h (by
      have := hrecs p (List.mem_cons_self _ _)
      simpa using this)

/-- Every loop occurrence is in the built database. -/
lemma buildVertDB_mem {mesh : Mesh} {f : Face} {i : Nat}
    (hf : f ∈ mesh) (hi : i < f.loops.length) :
    (dbFindRec? (buildVertDB mesh) (f.loops.getD i defaultLoop).vert).isSome := by
  have hmem : faceLoopRec f i ∈ allLoopRecs mesh :=
    List.mem_flatMap.mpr ⟨f, hf, List.mem_map.mpr ⟨i, List.mem_range.mpr hi, rfl⟩⟩
  exact foldl_dbAdd_mem (allLoopRecs mesh) [] _ _ hmem

/-- Every database entry has at least one loop occurrence
(`uv_count = 2·|loops| ≥ 2`). -/
lemma buildVertDB_entries_ne {mesh : Mesh} : ∀ e ∈ buildVertDB mesh, e.2 ≠ [] :=
  foldl_dbAdd_entries (allLoopRecs mesh) [] (by intro e he; cases he)

/-- Every loop occurrence stored in an entry came from the traversal. -/
lemma buildVertDB_recs {mesh : Mesh} :
    ∀ e ∈ buildVertDB mesh, ∀ s ∈ e.2, (e.1, s) ∈ allLoopRecs mesh :=
  foldl_dbAdd_recs (allLoopRecs mesh) (allLoopRecs mesh) []
    (by intro e he; cases he) (fun p hp => hp)

def defaultLoopRec : LoopRec := ⟨UV.zero, UV.zero, UV.zero, 0, 0⟩

def defaultVertInfo : VertInfo := ⟨[], UV.zero, 0, UV.zero, UV.zero, UV.zero⟩

/-- Total counterpart of `pass1Entry?` (agrees on nonempty entries). -/
def pass1EntryT (e : Nat × List LoopRec) : Nat × VertInfo :=
  let uvSum := e.2.foldl (fun s r => (s.add r.nextUV).add r.prevUV) UV.zero
  let cnt := 2 * e.2.length
  let uvP := UV.div uvSum (cnt : ℚ)
  (e.1, ⟨e.2, uvSum, cnt, uvP, uvP.sub ((e.2.headD defaultLoopRec).selfUV), UV.zero⟩)

lemma pass1Entry?_eq_some (e : Nat × List LoopRec) (h : e.2 ≠ []) :
    pass1Entry? e = some (pass1EntryT e) := by
  rcases e with ⟨v, recs⟩
  rcases recs with _ | ⟨a, l⟩
  · simp at h
  · have hc : ((2 * (a :: l).length : Nat) : ℚ) ≠ 0 := by
      rw [Nat.cast_ne_zero]
      simp
    have hc2 : ((l.length : ℚ) + 1) ≠ 0 := by positivity
    simp [pass1Entry?, pass1EntryT, qdivUV?, hc, hc2]

lemma pass1?_eq_some (db : VertDB) (h : ∀ e ∈ db, e.2 ≠ []) :
    pass1? db = some (db.map pass1EntryT) :=
  mapM_eq_some_map _ _ db (fun e he => pass1Entry?_eq_some e (h e he))

lemma find?_isSome_map_keyed {A B : Type} (g : Nat × A → Nat × B)
    (hg : ∀ e, (g e).1 = e.1) (db : List (Nat × A)) (v : Nat) :
    ((db.map g).find? (fun e => e.1 == v)).isSome =
      (db.find? (fun e => e.1 == v)).isSome := by
  rw [List.find?_map]
  have hp : ((fun e : Nat × B => e.1 == v) ∘ g) = (fun e : Nat × A => e.1 == v) := by
    funext e
    simp [Function.comp, hg e]
  rw [hp]
  rcases db.find? (fun e : Nat × A => e.1 == v) with _ | e <;> simp

lemma dbFind?_isSome_map_pass1 (db : VertDB) (v : Nat) :
    (dbFind? (db.map pass1EntryT) v).isSome = (dbFindRec? db v).isSome := by
  rw [dbFind?, dbFindRec?, List.find?_map]
  have hp : ((fun e : Nat × VertInfo => e.1 == v) ∘ pass1EntryT) =
      (fun e : Nat × List LoopRec => e.1 == v) := by
    funext e
    rfl
  rw [hp]
  rcases db.find? (fun e : Nat × List LoopRec => e.1 == v) with _ | e <;> rfl

/-- Total lookup used by the total pass-2 counterpart. -/
def dbFindT (db1 : List (Nat × VertInfo)) (v : Nat) : VertInfo :=
  (dbFind? db1 v).getD defaultVertInfo

/-- Total counterpart of `pass2Entry?` (agrees when all lookups succeed). -/
def pass2EntryT (db1 : List (Nat × VertInfo)) (e : Nat × VertInfo) : Nat × VertInfo :=
  (e.1, { e.2 with uv_sum_b := e.2.loops.foldl (fun s r =>
      (s.add (dbFindT db1 r.nextVert).uv_b).add (dbFindT db1 r.prevVert).uv_b) UV.zero })

lemma pass2Entry?_eq_some (db1 : List (Nat × VertInfo)) (e : Nat × VertInfo)
    (h : ∀ r ∈ e.2.loops,
      (dbFind? db1 r.nextVert).isSome ∧ (dbFind? db1 r.prevVert).isSome) :
    pass2Entry? db1 e = some (pass2EntryT db1 e) := by
  rw [pass2Entry?, pass2EntryT]
  rw [foldlM_eq_some_foldl _
    (fun s r => (s.add (dbFindT db1 r.nextVert).uv_b).add (dbFindT db1 r.prevVert).uv_b)
    e.2.loops UV.zero ?_]
  · rfl
  · intro r hr t
    obtain ⟨dn, hdn⟩ := Option.isSome_iff_exists.mp (h r hr).1
    obtain ⟨dp, hdp⟩ := Option.isSome_iff_exists.mp (h r hr).2
    rw [hdn, hdp]
    simp [dbFindT, hdn, hdp]

lemma pass2?_eq_some (db1 : List (Nat × VertInfo))
    (h : ∀ e ∈ db1, ∀ r ∈ e.2.loops,
      (dbFind? db1 r.nextVert).isSome ∧ (dbFind? db1 r.prevVert).isSome) :
    pass2? db1 = some (db1.map (pass2EntryT db1)) :=
  mapM_eq_some_map _ _ db1 (fun e he => pass2Entry?_eq_some db1 e (h e he))

/-- In the pass-1 database of a mesh, the next/prev vertices of every stored
loop occurrence have entries. -/
lemma db1_lookup_next_prev (mesh : Mesh) :
    ∀ e ∈ (buildVertDB mesh).map pass1EntryT, ∀ r ∈ e.2.loops,
      (dbFind? ((buildVertDB mesh).map pass1EntryT) r.nextVert).isSome ∧
      (dbFind? ((buildVertDB mesh).map pass1EntryT) r.prevVert).isSome := by
  intro e he r hr
  obtain ⟨e0, he0, rfl⟩ := List.mem_map.mp he
  have hloops : (pass1EntryT e0).2.loops = e0.2 := rfl
  rw [hloops] at hr
  have hrec : (e0.1, r) ∈ allLoopRecs mesh := buildVertDB_recs e0 he0 r hr
  obtain ⟨f, hf, hmap⟩ := List.mem_flatMap.mp hrec
  obtain ⟨i, hi, hfr⟩ := List.mem_map.mp hmap
  rw [List.mem_range] at hi
  have hn : r = (faceLoopRec f i).2 := by rw [hfr]
  have hnext : r.nextVert =
      (f.loops.getD ((i + 1) % f.loops.length) defaultLoop).vert := by
    rw [hn]; rfl
  have hprev : r.prevVert =
      (f.loops.getD ((i + f.loops.length - 1) % f.loops.length) defaultLoop).vert := by
    rw [hn]; rfl
  have hpos : 0 < f.loops.length := Nat.lt_of_le_of_lt (Nat.zero_le i) hi
  constructor
  · rw [hnext, dbFind?_isSome_map_pass1]
    exact buildVertDB_mem hf (Nat.mod_lt _ hpos)
  · rw [hprev, dbFind?_isSome_map_pass1]
    exact buildVertDB_mem hf (Nat.mod_lt _ hpos)

lemma mem_relaxSites {len2 : UV → ℚ} {proj : Nat → UV} {cfg : SculptConfig}
    {mesh : Mesh} {imco : UV} :
    ∀ p ∈ relaxSites len2 proj cfg mesh imco,
      p.1 < mesh.length ∧ p.2 < (faceAt mesh p.1).loops.length := by
  intro p h
  rw [relaxSites, List.mem_flatMap] at h
  obtain ⟨fi, hfi, h⟩ := h
  rw [List.mem_range] at hfi
  rw [relaxFaceSites] at h
  split at h
  · simp only [List.mem_filterMap, List.mem_range] at h
    obtain ⟨li, hli, hsome⟩ := h
    split at hsome
    · have heq : (fi, li) = p := Option.some.inj hsome
      rw [← heq]
      exact ⟨hfi, hli⟩
    · cases hsome
  · cases h

lemma dbFind?_isSome_map_pass2 (db1 : List (Nat × VertInfo)) (v : Nat) :
    (dbFind? (db1.map (pass2EntryT db1)) v).isSome = (dbFind? db1 v).isSome := by
  rw [dbFind?, dbFind?, List.find?_map]
  have hp : ((fun e : Nat × VertInfo => e.1 == v) ∘ pass2EntryT db1) =
      (fun e : Nat × VertInfo => e.1 == v) := by
    funext e
    rfl
  rw [hp]
  rcases db1.find? (fun e : Nat × VertInfo => e.1 == v) with _ | e <;> rfl

/-- Every entry of the two-pass database carries the `uv_count` of a raw
entry: twice that entry's occurrence count. -/
lemma db2_entry_count (mesh : Mesh) :
    ∀ e2 ∈ ((buildVertDB mesh).map pass1EntryT).map
        (pass2EntryT ((buildVertDB mesh).map pass1EntryT)),
      ∃ e0 ∈ buildVertDB mesh, e2.2.uv_count = 2 * e0.2.length := by
  intro e2 he2
  obtain ⟨e1, he1, rfl⟩ := List.mem_map.mp he2
  obtain ⟨e0, he0, rfl⟩ := List.mem_map.mp he1
  exact ⟨e0, he0, rfl⟩

lemma db_ne_of_find (db : VertDB) (v : Nat) (h : (dbFindRec? db v).isSome) :
    db ≠ [] := by
  rintro rfl
  simp [dbFindRec?] at h

/-- Every RELAX per-loop update succeeds: the lookups hit existing entries and
the division is by a count of at least 2. -/
lemma relaxLoopStep?_isSome (len2 : UV → ℚ) (proj : Nat → UV) (cfg : SculptConfig)
    (imco : UV) (mesh : Mesh) :
    ∀ p ∈ relaxSites len2 proj cfg mesh imco, ∀ m : Mesh,
      (relaxLoopStep? len2 proj cfg imco mesh
        (((buildVertDB mesh).map pass1EntryT).map
          (pass2EntryT ((buildVertDB mesh).map pass1EntryT))) m p).isSome := by
  intro p hp m
  obtain ⟨hp1, hp2⟩ := mem_relaxSites p hp
  have hface : faceAt mesh p.1 ∈ mesh := by
    rw [faceAt, List.getD_eq_getElem mesh defaultFace hp1]
    exact List.getElem_mem hp1
  have hvert : (dbFindRec? (buildVertDB mesh) (loopAt mesh p.1 p.2).vert).isSome :=
    buildVertDB_mem hface hp2
  have hvert2 : (dbFind? (((buildVertDB mesh).map pass1EntryT).map
      (pass2EntryT ((buildVertDB mesh).map pass1EntryT)))
      (loopAt mesh p.1 p.2).vert).isSome := by
    rw [dbFind?_isSome_map_pass2, dbFind?_isSome_map_pass1]
    exact hvert
  obtain ⟨dv, hdv⟩ := Option.isSome_iff_exists.mp hvert2
  simp only [relaxLoopStep?, hdv, Option.bind_eq_bind, Option.some_bind]
  by_cases hm : cfg.relaxMethod = "HC"
  · rw [if_pos hm]
    have h1ne : (buildVertDB mesh).map pass1EntryT ≠ [] := by
      intro hnil
      exact db_ne_of_find _ _ hvert (by simpa using List.map_eq_nil_iff.mp hnil)
    have h2ne : ((buildVertDB mesh).map pass1EntryT).map
        (pass2EntryT ((buildVertDB mesh).map pass1EntryT)) ≠ [] := by
      intro hnil
      exact h1ne (List.map_eq_nil_iff.mp hnil)
    obtain ⟨lastE, hlast⟩ := Option.isSome_iff_exists.mp
      (List.getLast?_isSome.mpr h2ne)
    have hlastmem : lastE ∈ ((buildVertDB mesh).map pass1EntryT).map
        (pass2EntryT ((buildVertDB mesh).map pass1EntryT)) := by
      rw [List.getLast?_eq_getLast _ h2ne] at hlast
      rw [← Option.some.inj hlast]
      exact List.getLast_mem h2ne
    obtain ⟨e0, he0, hcnt⟩ := db2_entry_count mesh lastE hlastmem
    have he0ne : e0.2 ≠ [] := buildVertDB_entries_ne e0 he0
    have hpos : 0 < e0.2.length := List.length_pos.mpr he0ne
    have hcast : ((lastE.2.uv_count : Nat) : ℚ) ≠ 0 := by
      rw [Nat.cast_ne_zero, hcnt]
      omega
    rw [hlast]
    simp only [Option.bind_eq_bind, Option.some_bind]
    simp [qdivUV?, hcast]
  · rw [if_neg hm]
    split <;> simp

/-- C9: the vertex database built at the start of a Relax tick has an entry
for the vertex of every loop and of every loop's next/prev neighbours, every
entry aggregates at least one occurrence (`uv_count = 2·|loops| ≥ 2`), and the
whole Relax apply — its dictionary lookups and its divisions — succeeds. -/
theorem relax_apply_total (len2 : UV → ℚ) (proj : Nat → UV) (cfg : SculptConfig)
    (imco : UV) (mesh : Mesh) :
    (∀ f ∈ mesh, ∀ i, i < f.loops.length →
      (dbFindRec? (buildVertDB mesh) (f.loops.getD i defaultLoop).vert).isSome ∧
      (dbFindRec? (buildVertDB mesh)
        (f.loops.getD ((i + 1) % f.loops.length) defaultLoop).vert).isSome ∧
      (dbFindRec? (buildVertDB mesh)
        (f.loops.getD ((i + f.loops.length - 1) % f.loops.length)
          defaultLoop).vert).isSome) ∧
    (∀ e ∈ buildVertDB mesh, 2 ≤ 2 * e.2.length) ∧
    (relaxApply? len2 proj cfg imco mesh).isSome := by
  refine ⟨?_, ?_, ?_⟩
  · intro f hf i hi
    have hpos : 0 < f.loops.length := Nat.lt_of_le_of_lt (Nat.zero_le i) hi
    exact ⟨buildVertDB_mem hf hi, buildVertDB_mem hf (Nat.mod_lt _ hpos),
      buildVertDB_mem hf (Nat.mod_lt _ hpos)⟩
  · intro e he
    have hne := buildVertDB_entries_ne e he
    have := List.length_pos.mpr hne
    omega
  · rw [relaxApply?, pass1?_eq_some (buildVertDB mesh) buildVertDB_entries_ne]
    rw [Option.bind_eq_bind, Option.some_bind]
    rw [pass2?_eq_some ((buildVertDB mesh).map pass1EntryT)
      (db1_lookup_next_prev mesh)]
    rw [Option.some_bind]
    exact foldlM_isSome _ _ mesh
      (fun p hp t => relaxLoopStep?_isSome len2 proj cfg imco mesh p hp t)

/-- Scenario configuration for RELAX with the HC method. -/
def scenCfgRelax : SculptConfig := ⟨10, 1, Tool.relax, false, "HC"⟩

/-- Witness for C9 on the concrete scenario mesh. -/
theorem relax_apply_total_witness :
    (dbFindRec? (buildVertDB scenMesh)
      (((⟨true, [⟨0, ⟨1/5, 3/10⟩, false, false⟩]⟩ : Face).loops.getD 0
        defaultLoop).vert)).isSome ∧
    (relaxApply? scenLen2 scenProj scenCfgRelax ⟨0, 0⟩ scenMesh).isSome := by
  have h := relax_apply_total scenLen2 scenProj scenCfgRelax ⟨0, 0⟩ scenMesh
  refine ⟨(h.1 ⟨true, [⟨0, ⟨1/5, 3/10⟩, false, false⟩]⟩ (by simp [scenMesh]) 0
    (by simp)).1, h.2.2⟩

/-! ### The Relax HC neighbour-count divergence (C1) -/

/-- Modelled from the spec's words (§4.5 Apply, HC): the HC update target with
the CURRENT vertex's neighbour count:
`(1-s)*cur + s*(meanUV - 0.5*(bias + biasSum/neighborCount))`. Compared below
against the embedded code, which divides by the last-iterated vertex's count. -/
def hcTargetSpec (s : ℚ) (cur meanUV bias biasSum : UV) (neighborCount : ℚ) : UV :=
  (UV.scale (1 - s) cur).add
    (UV.scale s (meanUV.sub (UV.scale (1/2) (bias.add (UV.div biasSum neighborCount)))))

/-- C1 projection: vertex 1 projects onto the cursor, all others far away. -/
def c1proj : Nat → UV := fun v => if v = 1 then ⟨0, 0⟩ else ⟨100, 0⟩

/-- C1 configuration: radius 10, strength 1, RELAX/HC. -/
def c1cfg : SculptConfig := ⟨10, 1, Tool.relax, false, "HC"⟩

/-- C1 mesh: two triangles sharing the edge `1-2`; only face 0 is selected.
Traversal inserts the vertex keys in the order 0, 1, 2, 3, so the
last-iterated `vert_db` entry is vertex 3 (one incident loop, `uv_count = 2`),
while the influenced loop's vertex 1 has two incident loops
(`uv_count = 4`). -/
def c1mesh : Mesh :=
  [⟨true, [⟨0, ⟨0, 0⟩, false, false⟩, ⟨1, ⟨2, 0⟩, false, false⟩,
           ⟨2, ⟨0, 2⟩, false, false⟩]⟩,
   ⟨false, [⟨1, ⟨4, 0⟩, false, false⟩, ⟨2, ⟨0, 4⟩, false, false⟩,
            ⟨3, ⟨6, 6⟩, false, false⟩]⟩]

/-- The two-pass database of the C1 mesh. -/
def c1db2 : List (Nat × VertInfo) :=
  ((buildVertDB c1mesh).map pass1EntryT).map
    (pass2EntryT ((buildVertDB c1mesh).map pass1EntryT))

/-- C1: the Relax HC apply divides `biasSum` by the `uv_count` of the LAST
`vert_db` entry (the leftover loop variable `d` of pass 2), not by the current
vertex's own count. On the two-triangle mesh: the one influenced loop (face 0,
loop 1, vertex 1, strength 1) is written to `(1, 5/2)`, which is the spec's
HC formula instantiated with the last entry's count 2 — and differs from the
same formula with vertex 1's own count 4, as the claim states it. -/
theorem relax_hc_divides_by_last_count :
    relaxApply? scenLen2 c1proj c1cfg ⟨0, 0⟩ c1mesh =
      some (setLoopUV c1mesh 0 1 ⟨1, 5/2⟩) ∧
    loopUVAt (setLoopUV c1mesh 0 1 ⟨1, 5/2⟩) 0 1 = ⟨1, 5/2⟩ ∧
    (dbFindT c1db2 1).uv_count = 4 ∧
    (c1db2.getLast?).map (fun e => e.2.uv_count) = some 2 ∧
    (⟨1, 5/2⟩ : UV) = hcTargetSpec 1 (loopUVAt c1mesh 0 1) (dbFindT c1db2 1).uv_p
      (dbFindT c1db2 1).uv_b (dbFindT c1db2 1).uv_sum_b 2 ∧
    hcTargetSpec 1 (loopUVAt c1mesh 0 1) (dbFindT c1db2 1).uv_p
      (dbFindT c1db2 1).uv_b (dbFindT c1db2 1).uv_sum_b
      ((dbFindT c1db2 1).uv_count : ℚ) ≠ ⟨1, 5/2⟩ := by
  have hfind : dbFindT c1db2 1 =
      ⟨[⟨⟨2, 0⟩, ⟨0, 2⟩, ⟨0, 0⟩, 2, 0⟩, ⟨⟨4, 0⟩, ⟨0, 4⟩, ⟨6, 6⟩, 2, 3⟩],
        ⟨6, 12⟩, 4, ⟨3/2, 3⟩, ⟨-(1/2), 3⟩, ⟨3, -4⟩⟩ := by
    simp [c1db2, buildVertDB, allLoopRecs, c1mesh, faceLoopRec, dbAdd,
      pass1EntryT, pass2EntryT, dbFindT, dbFind?, List.find?, List.range_succ,
      UV.add, UV.sub, UV.div, UV.zero, defaultLoop, defaultLoopRec, qabs]
    norm_num
  have hcur : loopUVAt c1mesh 0 1 = ⟨2, 0⟩ := by
    simp [loopUVAt, loopAt, faceAt, c1mesh]
  have h4 : relaxSites scenLen2 c1proj c1cfg c1mesh ⟨0, 0⟩ = [(0, 1)] := by
    simp [relaxSites, relaxFaceSites, c1mesh, faceAt, loopAt, getStrength,
      scenLen2, qabs, c1proj, c1cfg, UV.sub, List.range_succ,
      List.filterMap_cons, List.getD_cons_zero]
    norm_num
  refine ⟨?_, ?_, ?_, ?_, ?_, ?_⟩
  · rw [relaxApply?, pass1?_eq_some (buildVertDB c1mesh) buildVertDB_entries_ne,
      Option.bind_eq_bind, Option.some_bind,
      pass2?_eq_some ((buildVertDB c1mesh).map pass1EntryT)
        (db1_lookup_next_prev c1mesh), Option.some_bind, h4, List.foldlM_cons]
    unfold relaxLoopStep?
    simp [buildVertDB, allLoopRecs, c1mesh, faceLoopRec, dbAdd, pass1EntryT,
      pass2EntryT, dbFindT, dbFind?, List.find?, List.range_succ, qdivUV?,
      List.foldlM_nil, Option.bind_eq_bind, Option.some_bind, loopAt, faceAt,
      loopUVAt, setLoopUV, getStrength, scenLen2, qabs, c1proj, c1cfg, UV.add,
      UV.sub, UV.div, UV.scale, UV.zero, defaultLoop, defaultLoopRec,
      List.getD_cons_zero, List.getElem?_cons_zero, List.getElem?_cons_succ]
    norm_num
  · simp [setLoopUV, loopUVAt, loopAt, faceAt, c1mesh, List.getD_cons_zero,
      List.getElem?_cons_zero, List.getElem?_cons_succ]
  · rw [hfind]
  · simp [c1db2, buildVertDB, allLoopRecs, c1mesh, faceLoopRec, dbAdd,
      pass1EntryT, pass2EntryT, dbFindT, dbFind?, List.find?, List.range_succ,
      UV.add, UV.sub, UV.div, UV.zero, defaultLoop, defaultLoopRec]
  · rw [hfind, hcur]
    norm_num [hcTargetSpec, UV.scale, UV.add, UV.sub, UV.div]
  · rw [hfind, hcur]
    norm_num [hcTargetSpec, UV.scale, UV.add, UV.sub, UV.div]

/-! ### Copy/paste shape mismatch (C4) -/

/-- C4 source capture: a triangle's data and a quad's data. -/
def c4src : List FaceData :=
  [⟨[⟨1, 1⟩, ⟨2, 2⟩, ⟨3, 3⟩], [true, false, true], [true, true, false]⟩,
   ⟨[⟨4, 4⟩, ⟨5, 5⟩, ⟨6, 6⟩, ⟨7, 7⟩], [false, false, false, false],
     [false, false, false, false]⟩]

/-- C4 destination mesh: two selected triangles. -/
def c4destMesh : Mesh :=
  [⟨true, [⟨0, ⟨0, 0⟩, false, false⟩, ⟨1, ⟨0, 0⟩, false, false⟩,
           ⟨2, ⟨0, 0⟩, false, false⟩]⟩,
   ⟨true, [⟨3, ⟨9, 9⟩, false, false⟩, ⟨4, ⟨9, 9⟩, false, false⟩,
           ⟨5, ⟨9, 9⟩, false, false⟩]⟩]

/-- The mesh after the first (successful) face paste: the state in which the
selection-sequence paste stops when it hits the mismatched second pair. -/
def c4afterFirst : Mesh :=
  pasteFaceWrites c4destMesh 0
    ⟨[⟨1, 1⟩, ⟨2, 2⟩, ⟨3, 3⟩], [true, false, true], [true, true, false]⟩ true

/-- C4: on a shape mismatch the plain paste operator `MUV_CPUVPasteUV` does
not report anything — it crashes with `NameError` (its `uv_layer`,
`dest_uvs`, `dest_face_indices` locals are never assigned in this revision)
as soon as a selected face is scanned, under both strategies; the
selection-sequence paste behaves as the claim says: it reports the mismatch
as a `CANCELLED` return, keeps the face written before the mismatch, and
writes nothing to the mismatched face. -/
theorem paste_shape_mismatch :
    cpuvPasteExecute true true PasteStrategy.n_n c4destMesh =
      Except.error (PyErr.nameError "uv_layer") ∧
    cpuvPasteExecute true true PasteStrategy.n_m c4destMesh =
      Except.error (PyErr.nameError "uv_layer") ∧
    selSeqPasteExecute c4src true PasteStrategy.n_n false 0 true [0, 1] c4destMesh =
      Except.ok (OpResult.cancelled, c4afterFirst) ∧
    selSeqPasteExecute c4src true PasteStrategy.n_m false 0 true [0, 1] c4destMesh =
      Except.ok (OpResult.cancelled, c4afterFirst) ∧
    faceAt c4afterFirst 1 = faceAt c4destMesh 1 ∧
    loopUVAt c4afterFirst 0 0 = ⟨1, 1⟩ ∧
    loopUVAt c4afterFirst 0 1 = ⟨2, 2⟩ ∧
    loopUVAt c4afterFirst 0 2 = ⟨3, 3⟩ := by
  refine ⟨?_, ?_, ?_, ?_, ?_, ?_, ?_, ?_⟩
  · simp [cpuvPasteExecute, c4destMesh]
  · simp [cpuvPasteExecute, c4destMesh]
  · simp [selSeqPasteExecute, selSeqPasteLoop, pasteSrcOf, c4src, c4destMesh,
      c4afterFirst, pasteFaceWrites, setLoopFull, faceAt, List.range_succ,
      flipFace, rotateFace, rotStepN, List.getD_cons_zero,
      List.getElem?_cons_zero, List.getElem?_cons_succ]
  · simp [selSeqPasteExecute, selSeqPasteLoop, pasteSrcOf, c4src, c4destMesh,
      c4afterFirst, pasteFaceWrites, setLoopFull, faceAt, List.range_succ,
      flipFace, rotateFace, rotStepN, List.getD_cons_zero,
      List.getElem?_cons_zero, List.getElem?_cons_succ]
  · simp [c4afterFirst, pasteFaceWrites, setLoopFull, faceAt, c4destMesh,
      List.range_succ, List.getD_cons_zero, List.getElem?_cons_zero,
      List.getElem?_cons_succ]
  · simp [c4afterFirst, pasteFaceWrites, setLoopFull, faceAt, loopAt, loopUVAt,
      c4destMesh, List.range_succ, List.getD_cons_zero,
      List.getElem?_cons_zero, List.getElem?_cons_succ]
  · simp [c4afterFirst, pasteFaceWrites, setLoopFull, faceAt, loopAt, loopUVAt,
      c4destMesh, List.range_succ, List.getD_cons_zero,
      List.getElem?_cons_zero, List.getElem?_cons_succ]
  · simp [c4afterFirst, pasteFaceWrites, setLoopFull, faceAt, loopAt, loopUVAt,
      c4destMesh, List.range_succ, List.getD_cons_zero,
      List.getElem?_cons_zero, List.getElem?_cons_succ]

end MagicUV
